import Mathlib

/-!
# The rig calibration driver `main_rigCalibration.cpp`

A shallow embedding of the two functions of the file, `myToString` and `main`.

`main` talks to four collaborators whose code lives elsewhere (the option parser, the
localizer, the feed provider and the rig).  They are taken as parameters, gathered in the
structure `World`; every call made on one of them is recorded as an `Event`, and `main`
returns the list of events of the run together with the way the run ends.

What the model takes from the source and what it leaves out:
* a feed is the finite list of frames that `feed.next` delivers before it returns `false`;
* the values returned by `localizer.localize`, `rig.setTrackingResult`,
  `rig.initializeCalibration` and `rig.optimizeCalibration` are not used by `main`, and
  are not part of the model;
* only the exceptions `main` catches (those of the option parser) are modelled;
* the text of the lines that print a `double` (the time statistics) is not computed: such
  a line is recorded with the samples it is computed from.

Machine integers:
* `iLocalizer` is an `int`.  It starts at `0` and is only ever incremented, so the single
  overflow is `++iLocalizer` at `INT_MAX`, which is undefined behaviour; the model stops
  there with the outcome `Outcome.undefinedBehaviour`, and the trace then holds the events
  up to that point.
* the comparison `iLocalizer < nCam` converts the `int` to `std::size_t` (`toSizeT`).
* `std::setw` takes an `int`: the `std::size_t` argument `zeroPadding` is converted
  (`toInt`).
* `frameCounter` is a `std::size_t` that counts the elements held by the vector
  `vLocalizationResults`; a vector never holds `2^64` elements, so it is a plain `Nat`.
-/

namespace RigCalibration

/-! ## Machine integers -/

/-- Largest value of the type `int`. -/
def INT_MAX : Nat := 2147483647

/-- Conversion of a `std::size_t` to `int` (two's complement, 32 bits). -/
def toInt (n : Nat) : Int :=
  if n % 4294967296 < 2147483648 then ((n % 4294967296 : Nat) : Int)
  else ((n % 4294967296 : Nat) : Int) - 4294967296

/-- Conversion of an `int` to `std::size_t` (64 bits), as the usual arithmetic conversions
do in `iLocalizer < nCam`. -/
def toSizeT (i : Int) : Nat := (i % 18446744073709551616).toNat

/-! ## Stream formatting -/

/-- The character of the decimal digit `d`. -/
def digitChar (d : Nat) : Char := Char.ofNat (48 + d)

/-- Decimal digits of `n`, most significant first; `fuel` bounds the number of digits. -/
def decimalFuel : Nat → Nat → List Char
  | 0, _ => []
  | fuel + 1, n =>
    if n < 10 then [digitChar n] else decimalFuel fuel (n / 10) ++ [digitChar (n % 10)]

/-- What `operator<<` writes for an unsigned integer: its decimal representation. -/
def decimal (n : Nat) : List Char := decimalFuel (n + 1) n

/-- Padding done by the stream for a field of width `width` (set by `std::setw`) and fill
character `fill` (set by `std::setfill`); the default adjustment puts the fill characters
first, and a width that is not larger than the text adds nothing. -/
def padField (width : Int) (fill : Char) (text : List Char) : List Char :=
  List.replicate (width - (text.length : Int)).toNat fill ++ text

/-- `std::string myToString(std::size_t i, std::size_t zeroPadding)`:
`ss << std::setw(zeroPadding) << std::setfill('0') << i; return ss.str();` -/
def myToString (i zeroPadding : Nat) : String :=
  String.mk (padField (toInt zeroPadding) '0' (decimal i))

/-- `std::to_string(int)`. -/
def to_string (i : Int) : String :=
  if i < 0 then String.mk ('-' :: decimal i.natAbs) else String.mk (decimal i.natAbs)

/-- Value of a decimal digit character. -/
def digitValue (c : Char) : Nat := c.toNat - 48

/-- Reading a string of decimal digits back as a number. -/
def readDecimal (s : List Char) : Nat := s.foldl (fun acc c => 10 * acc + digitValue c) 0

/-- The characters `'0'` ... `'9'`. -/
def isDecimalDigit (c : Char) : Prop := 48 ≤ c.toNat ∧ c.toNat ≤ 57

/-! ## The collaborators of `main` -/

/-- Exit statuses used by `main`. -/
inductive ExitStatus
  | EXIT_SUCCESS
  | EXIT_FAILURE
  deriving DecidableEq

/-- How a run of `main` ends. -/
inductive Outcome
  | returned (status : ExitStatus)
  | undefinedBehaviour
  deriving DecidableEq

/-- The two exception types `main` catches. -/
inductive PoException
  | required_option (what : String)
  | error (what : String)
  deriving DecidableEq

/-- The text `e.what()`. -/
def PoException.what : PoException → String
  | .required_option s => s
  | .error s => s

/-- Values of the variables bound to the command-line options once `po::notify` is done. -/
structure Options where
  sfmFilePath : String
  descriptorsFolder : String
  mediaFilepath : String
  nNearestKeyFrames : Nat
  refineIntrinsics : Bool
  nCam : Nat
  exportFile : String
  deriving DecidableEq

/-- The fields of `localization::CCTagLocalizer::Parameters` that `main` sets. -/
structure Parameters where
  _nNearestKeyFrames : Nat
  _refineIntrinsics : Bool
  deriving DecidableEq

/-- What one successful call of `feed.next` stores in its four output arguments;
`queryIntrinsics = none` when the call leaves that argument as it was. -/
structure Frame (Img Intr : Type) where
  imageGrey : Img
  queryIntrinsics : Option Intr
  currentImgName : String
  hasIntrinsics : Bool
  deriving DecidableEq

/-- The statistics read from the accumulator `stats`. -/
inductive Stat
  | sumDiv1000
  | mean
  | max
  | min
  deriving DecidableEq

/-- The observable steps of a run: the lines printed and the calls on the collaborators.
A line printed with `POPART_COUT` or `POPART_CERR` is recorded without the final
`std::endl`.  `coutStat` stands for a line that prints a `double` computed by the
accumulator from the listed samples.  `localize` carries the camera being processed, the
frame the feed delivered and the result the call produced. -/
inductive Event (Img Intr R Pts : Type)
  | cout (text : String)
  | cerr (text : String)
  | coutStat (label : String) (stat : Stat) (samples : List Nat) (unit : String)
  | parse_command_line (threw : Option PoException)
  | notify (threw : Option PoException)
  | localizerInit (sfmFilePath descriptorsFolder : String) (isInit : Bool)
  | exporterCreate (exportFile : String)
  | addPoints (landmarks : Pts)
  | feedProvider (iLocalizer : Int) (subMediaFilepath calibFile : String) (isInit : Bool)
  | localize (iLocalizer : Int) (frame : Frame Img Intr) (localizationResult : R)
  | setTrackingResult (vLocalizationResults : List R) (iLocalizer : Int)
  | initializeCalibration
  | optimizeCalibration
  deriving DecidableEq

/-- Everything `main` receives from outside.
* `HAVE_ALEMBIC`: the compile-time switch.
* `parseThrows`: the exception thrown by `po::store(po::parse_command_line(...), vm)`.
* `helpCount`: `vm.count("help")`.
* `notifyThrows`: the exception thrown by `po::notify(vm)`.
* `options`: the values of the option variables after `po::notify`.
* `descText`: the text `operator<<` prints for `desc`.
* `localizerInit`: `localizer.init`; `none` when it returns `false`, else the localizer.
* `landmarks`: `localizer.getSfMData().GetLandmarks()`.
* `feedProvider`: the constructor of `dataio::FeedProvider`; `none` when `isInit()` is
  `false`, else the frames `feed.next` delivers before it returns `false`.
* `defaultIntrinsics`: the default-constructed `queryIntrinsics`.
* `localize`: `localizer.localize`, which may update the localizer and `queryIntrinsics`
  and fills `localizationResult`.
* `elapsed`: the milliseconds measured around the `localize` call of a frame. -/
structure World (Img Intr R L Pts : Type) where
  HAVE_ALEMBIC : Bool
  argc : Nat
  parseThrows : Option PoException
  helpCount : Nat
  notifyThrows : Option PoException
  options : Options
  descText : String
  localizerInit : String → String → Option L
  landmarks : L → Pts
  feedProvider : String → String → Option (List (Frame Img Intr))
  defaultIntrinsics : Intr
  localize : L → Img → Parameters → Bool → Intr → L × Intr × R
  elapsed : Int → Nat → Nat

/-- The variables the frame loop of one camera reads and writes. -/
structure LoopVars (Intr R L : Type) where
  localizer : L
  queryIntrinsics : Intr
  frameCounter : Nat
  stats : List Nat
  vLocalizationResults : List R

/-- How the camera loop is left. -/
inductive LoopExit (L : Type)
  | finished (localizer : L)
  | returned (status : ExitStatus)
  | overflow

/-- A run: its events in order, and its end. -/
structure Run (Img Intr R Pts : Type) where
  trace : List (Event Img Intr R Pts)
  outcome : Outcome

variable {Img Intr R L Pts : Type}

/-! ## The program -/

/-- The line of asterisks printed around the frame header. -/
def stars : String := "******************************"

/-- The loop `while (feed.next(imageGrey, queryIntrinsics, currentImgName, hasIntrinsics))`
of camera `iLocalizer`, run on the frames the feed still has to deliver. -/
def frameLoop (w : World Img Intr R L Pts) (param : Parameters) (iLocalizer : Int) :
    List (Frame Img Intr) → LoopVars Intr R L → List (Event Img Intr R Pts) × LoopVars Intr R L
  | [], v => ([], v)
  | f :: feed, v =>
    let queryIntrinsics := f.queryIntrinsics.getD v.queryIntrinsics
    let call := w.localize v.localizer f.imageGrey param f.hasIntrinsics queryIntrinsics
    let localizationResult := call.2.2
    let detect_elapsed := w.elapsed iLocalizer v.frameCounter
    let rest := frameLoop w param iLocalizer feed
      { localizer := call.1
        queryIntrinsics := call.2.1
        frameCounter := v.frameCounter + 1
        stats := v.stats ++ [detect_elapsed]
        vLocalizationResults := v.vLocalizationResults ++ [localizationResult] }
    ([Event.cout stars,
      Event.cout ("FRAME " ++ myToString v.frameCounter 4),
      Event.cout stars,
      Event.localize iLocalizer f localizationResult,
      Event.cout ("\nLocalization took  " ++ String.mk (decimal detect_elapsed) ++ " [ms]")]
      ++ rest.1, rest.2)

/-- `subMediaFilepath = mediaFilepath + "/" + std::to_string(iLocalizer)`. -/
def subMediaFilepath (o : Options) (iLocalizer : Int) : String :=
  o.mediaFilepath ++ "/" ++ to_string iLocalizer

/-- `calibFile = subMediaFilepath + "/intrinsics.txt"`. -/
def calibFile (o : Options) (iLocalizer : Int) : String :=
  subMediaFilepath o iLocalizer ++ "/intrinsics.txt"

/-- The lines printed after `rig.setTrackingResult`. -/
def timeStats (v : LoopVars Intr R L) : List (Event Img Intr R Pts) :=
  [Event.cout "\n\n******************************",
   Event.cout ("Localized " ++ String.mk (decimal v.frameCounter) ++ " images"),
   Event.coutStat "Processing took " Stat.sumDiv1000 v.stats " [s] overall",
   Event.coutStat "Mean time for localization:   " Stat.mean v.stats " [ms]",
   Event.coutStat "Max time for localization:   " Stat.max v.stats " [ms]",
   Event.coutStat "Min time for localization:   " Stat.min v.stats " [ms]"]

/-- The variables declared at the top of the body of the camera loop, before the frame
loop: `frameCounter = 0`, an empty accumulator and an empty `vLocalizationResults`. -/
def initialVars (w : World Img Intr R L Pts) (localizer : L) : LoopVars Intr R L :=
  { localizer := localizer
    queryIntrinsics := w.defaultIntrinsics
    frameCounter := 0
    stats := []
    vLocalizationResults := [] }

/-- The events of one iteration of the camera loop whose feed opens: the feed is created,
the frame loop runs over `feed`, the track is handed to the rig, the statistics are
printed. -/
def cameraBody (w : World Img Intr R L Pts) (o : Options) (param : Parameters)
    (iLocalizer : Int) (localizer : L) (feed : List (Frame Img Intr)) :
    List (Event Img Intr R Pts) :=
  let frames := frameLoop w param iLocalizer feed (initialVars w localizer)
  [Event.feedProvider iLocalizer (subMediaFilepath o iLocalizer) (calibFile o iLocalizer) true]
  ++ frames.1
  ++ [Event.setTrackingResult frames.2.vLocalizationResults iLocalizer]
  ++ timeStats frames.2

/-- The loop `for (int iLocalizer = 0; iLocalizer < nCam; ++iLocalizer)`, entered with the
given value of `iLocalizer` and state of the localizer.  The first argument bounds the
number of iterations; `main` passes `nCam`, which is never exceeded since `iLocalizer`
starts at `0` (see `cameraLoop_fuel_exact`). -/
def cameraLoop (w : World Img Intr R L Pts) (o : Options) (param : Parameters) :
    Nat → Int → L → List (Event Img Intr R Pts) × LoopExit L
  | 0, _, localizer => ([], LoopExit.finished localizer)
  | fuel + 1, iLocalizer, localizer =>
    if toSizeT iLocalizer < o.nCam then
      match w.feedProvider (subMediaFilepath o iLocalizer) (calibFile o iLocalizer) with
      | none =>
        ([Event.feedProvider iLocalizer (subMediaFilepath o iLocalizer)
            (calibFile o iLocalizer) false,
          Event.cerr "ERROR while initializing the FeedProvider!"],
         LoopExit.returned ExitStatus.EXIT_FAILURE)
      | some feed =>
        let body := cameraBody w o param iLocalizer localizer feed
        let frames := frameLoop w param iLocalizer feed (initialVars w localizer)
        if iLocalizer = (INT_MAX : Int) then (body, LoopExit.overflow)
        else
          let rest := cameraLoop w o param fuel (iLocalizer + 1) frames.2.localizer
          (body ++ rest.1, rest.2)
    else ([], LoopExit.finished localizer)

/-- The two handlers `catch (required_option& e)` and `catch (error& e)`. -/
def handler (w : World Img Intr R L Pts) (e : PoException) : List (Event Img Intr R Pts) :=
  [Event.cerr ("ERROR: " ++ e.what ++ "\n"), Event.cout ("Usage:\n\n" ++ w.descText)]

/-- A `bool` written to a stream. -/
def boolText (b : Bool) : String := if b then "1" else "0"

/-- The block printing the parameters the program was called with. -/
def banner (o : Options) (param : Parameters) : List (Event Img Intr R Pts) :=
  [Event.cout "Program called with the following parameters:",
   Event.cout ("\tsfmdata: " ++ o.sfmFilePath),
   Event.cout ("\tmediafile: " ++ o.mediaFilepath),
   Event.cout ("\tsiftPath: " ++ o.descriptorsFolder),
   Event.cout ("\tresults: " ++ String.mk (decimal param._nNearestKeyFrames)),
   Event.cout ("\trefineIntrinsics: " ++ boolText param._refineIntrinsics)]

/-- The events of a run that reaches `localizer.init`, up to that call. -/
def startup (o : Options) (param : Parameters) (isInit : Bool) : List (Event Img Intr R Pts) :=
  [Event.parse_command_line none, Event.notify none] ++ banner o param
  ++ [Event.localizerInit o.sfmFilePath o.descriptorsFolder isInit]

/-- The exporter block under `#if HAVE_ALEMBIC`. -/
def exporter (w : World Img Intr R L Pts) (o : Options) (localizer : L) :
    List (Event Img Intr R Pts) :=
  if w.HAVE_ALEMBIC then [Event.exporterCreate o.exportFile, Event.addPoints (w.landmarks localizer)]
  else []

/-- What follows the camera loop: the two calibration calls when the loop ran to its end. -/
def calibration : LoopExit L → List (Event Img Intr R Pts)
  | LoopExit.finished _ =>
    [Event.cout "Rig calibration initialization", Event.initializeCalibration,
     Event.cout "Rig calibration optimization", Event.optimizeCalibration]
  | _ => []

/-- The end of the run; flowing off the end of `main` returns `0`, that is `EXIT_SUCCESS`. -/
def ending : LoopExit L → Outcome
  | LoopExit.finished _ => Outcome.returned ExitStatus.EXIT_SUCCESS
  | LoopExit.returned status => Outcome.returned status
  | LoopExit.overflow => Outcome.undefinedBehaviour

/-- The variable `param`: default-constructed, then filled from the options `results` and
`refineIntrinsics`. -/
def parameters (o : Options) : Parameters :=
  { _nNearestKeyFrames := o.nNearestKeyFrames, _refineIntrinsics := o.refineIntrinsics }

/-- `int main(int argc, char** argv)`. -/
def main (w : World Img Intr R L Pts) : Run Img Intr R Pts :=
  match w.parseThrows with
  | some e =>
    { trace := [Event.parse_command_line (some e)] ++ handler w e
      outcome := Outcome.returned ExitStatus.EXIT_FAILURE }
  | none =>
    if w.helpCount ≠ 0 ∨ w.argc = 1 then
      { trace := [Event.parse_command_line none, Event.cout w.descText]
        outcome := Outcome.returned ExitStatus.EXIT_SUCCESS }
    else
      match w.notifyThrows with
      | some e =>
        { trace := [Event.parse_command_line none, Event.notify (some e)] ++ handler w e
          outcome := Outcome.returned ExitStatus.EXIT_FAILURE }
      | none =>
        let o := w.options
        let param := parameters o
        match w.localizerInit o.sfmFilePath o.descriptorsFolder with
        | none =>
          { trace := startup o param false
              ++ [Event.cerr "ERROR while initializing the localizer!"]
            outcome := Outcome.returned ExitStatus.EXIT_FAILURE }
        | some localizer =>
          let loop := cameraLoop w o param o.nCam 0 localizer
          { trace := startup o param true ++ exporter w o localizer ++ loop.1
              ++ calibration loop.2
            outcome := ending loop.2 }

/-! ## Reading a trace -/

/-- The calls made on the rig object. -/
def isRigCall : Event Img Intr R Pts → Bool
  | Event.setTrackingResult _ _ => true
  | Event.initializeCalibration => true
  | Event.optimizeCalibration => true
  | _ => false

/-- The `setTrackingResult` calls. -/
def isSetTrackingResult : Event Img Intr R Pts → Bool
  | Event.setTrackingResult _ _ => true
  | _ => false

/-- The `initializeCalibration` calls. -/
def isInitializeCalibration : Event Img Intr R Pts → Bool
  | Event.initializeCalibration => true
  | _ => false

/-- The `optimizeCalibration` calls. -/
def isOptimizeCalibration : Event Img Intr R Pts → Bool
  | Event.optimizeCalibration => true
  | _ => false

/-- The calls on the rig object, in order. -/
def rigCalls (t : List (Event Img Intr R Pts)) : List (Event Img Intr R Pts) :=
  t.filter isRigCall

/-- The camera indices of the `setTrackingResult` calls, in order. -/
def setTrackingCameras (t : List (Event Img Intr R Pts)) : List Int :=
  t.filterMap fun e =>
    match e with
    | Event.setTrackingResult _ i => some i
    | _ => none

/-- The `localize` calls made for camera `i`, in order: the frame and the result. -/
def localizeCalls (i : Int) (t : List (Event Img Intr R Pts)) : List (Frame Img Intr × R) :=
  t.filterMap fun e =>
    match e with
    | Event.localize j f r => if j = i then some (f, r) else none
    | _ => none

/-- The feed of camera `i`, as `main` opens it. -/
def feedOf (w : World Img Intr R L Pts) (i : Int) : Option (List (Frame Img Intr)) :=
  w.feedProvider (subMediaFilepath w.options i) (calibFile w.options i)

/-- What the program itself produces: the lines it prints and what it hands to the
exporter. -/
def isOutput : Event Img Intr R Pts → Bool
  | Event.cout _ => true
  | Event.cerr _ => true
  | Event.coutStat _ _ _ _ => true
  | Event.exporterCreate _ => true
  | Event.addPoints _ => true
  | _ => false

/-- The output of a run: the printed lines and exporter calls, and the end of the run. -/
def output (r : Run Img Intr R Pts) : List (Event Img Intr R Pts) × Outcome :=
  (r.trace.filter isOutput, r.outcome)

/-- The camera an event belongs to: the camera whose feed is opened, for which a frame is
localized, or whose track is handed to the rig. -/
def cameraOf : Event Img Intr R Pts → Option Int
  | Event.feedProvider i _ _ _ => some i
  | Event.localize i _ _ => some i
  | Event.setTrackingResult _ i => some i
  | _ => none

/-- The step of the per-camera collection an event belongs to: opening the feed (0),
localizing a frame (1), handing the track to the rig (2). -/
def phase : Event Img Intr R Pts → Nat
  | Event.localize _ _ _ => 1
  | Event.setTrackingResult _ _ => 2
  | _ => 0

/-- The order of the sequential collection: an earlier camera, or the same camera at a
step that is not later. -/
def inOrder (a b : Event Img Intr R Pts) : Prop :=
  ∀ j k, cameraOf a = some j → cameraOf b = some k → j < k ∨ (j = k ∧ phase a ≤ phase b)

/-- The events of the iteration of the frame loop of camera `i` that is announced as
`FRAME k`, when it processes the frame `f` and the localizer produces `r`. -/
def frameEvents (w : World Img Intr R L Pts) (i : Int) (k : Nat) (f : Frame Img Intr) (r : R) :
    List (Event Img Intr R Pts) :=
  [Event.cout stars,
   Event.cout ("FRAME " ++ myToString k 4),
   Event.cout stars,
   Event.localize i f r,
   Event.cout ("\nLocalization took  " ++ String.mk (decimal (w.elapsed i k)) ++ " [ms]")]

/-! ## Concrete worlds -/

/-- A frame whose image is the number `n`. -/
def frame (n : Nat) : Frame Nat Nat :=
  { imageGrey := n, queryIntrinsics := none, currentImgName := "", hasIntrinsics := false }

/-- A world with `nCam` cameras in which the command line is accepted, the localizer
starts, the pose found for image `n` is `pose n`, and the feeds are given by `feeds`. -/
def world (nCam : Nat) (feeds : String → Option (List (Frame Nat Nat))) (pose : Nat → Nat) :
    World Nat Nat Nat Unit Unit :=
  { HAVE_ALEMBIC := true
    argc := 5
    parseThrows := none
    helpCount := 0
    notifyThrows := none
    options :=
      { sfmFilePath := "sfm.json", descriptorsFolder := "", mediaFilepath := "m",
        nNearestKeyFrames := 4, refineIntrinsics := false, nCam := nCam,
        exportFile := "trackedcameras.abc" }
    descText := ""
    localizerInit := fun _ _ => some ()
    landmarks := fun _ => ()
    feedProvider := fun s _ => feeds s
    defaultIntrinsics := 0
    localize := fun l img _ _ q => (l, q, pose img)
    elapsed := fun _ _ => 7 }

/-- The world `w` with another localizer function. -/
def withLocalize (w : World Img Intr R L Pts)
    (localize : L → Img → Parameters → Bool → Intr → L × Intr × R) : World Img Intr R L Pts :=
  { w with localize := localize }

/-- One camera whose feed opens and delivers no frame. -/
def emptyFeed (s : String) : Option (List (Frame Nat Nat)) :=
  if s = "m/0" then some [] else none

/-- One camera whose feed delivers a single frame. -/
def oneFrame (s : String) : Option (List (Frame Nat Nat)) :=
  if s = "m/0" then some [frame 10] else none

/-- A media folder in which every sub-folder named by a number without sign opens and
delivers no frame, and nothing else opens. -/
def unsignedFeeds (s : String) : Option (List (Frame Nat Nat)) :=
  if '-' ∈ s.data then none else some []

/-- Two cameras: the first delivers two frames, the second one frame. -/
def twoFeeds (s : String) : Option (List (Frame Nat Nat)) :=
  if s = "m/0" then some [frame 10, frame 11]
  else if s = "m/1" then some [frame 20]
  else none

/-! ## Formatting: lemmas -/

theorem digitChar_toNat (d : Nat) (h : d < 10) : (digitChar d).toNat = 48 + d := by
  interval_cases d <;> rfl

theorem decimalFuel_ne_nil (fuel n : Nat) (h : n < fuel) : decimalFuel fuel n ≠ [] := by
  cases fuel with
  | zero => omega
  | succ fuel =>
    unfold decimalFuel
    split <;> simp

theorem readDecimal_append (s : List Char) (c : Char) :
    readDecimal (s ++ [c]) = 10 * readDecimal s + digitValue c := by
  simp [readDecimal, List.foldl_append]

theorem decimalFuel_spec (fuel : Nat) : ∀ n, n < fuel →
    readDecimal (decimalFuel fuel n) = n ∧
    (∀ c ∈ decimalFuel fuel n, isDecimalDigit c) ∧
    n < 10 ^ (decimalFuel fuel n).length ∧
    (n ≠ 0 → 10 ^ ((decimalFuel fuel n).length - 1) ≤ n) := by
  induction fuel with
  | zero => intro n h; omega
  | succ fuel ih =>
    intro n h
    unfold decimalFuel
    by_cases h10 : n < 10
    · simp only [h10, if_true]
      refine ⟨?_, ?_, ?_, ?_⟩
      · simp [readDecimal, digitValue, digitChar_toNat n h10]
      · intro c hc
        simp at hc
        subst hc
        simp [isDecimalDigit, digitChar_toNat n h10]
        omega
      · simpa using h10
      · intro h0; simp; omega
    · simp only [h10, if_false]
      have hlt : n / 10 < fuel := by omega
      obtain ⟨h1, h2, h3, h4⟩ := ih (n / 10) hlt
      have hmod : n % 10 < 10 := Nat.mod_lt _ (by decide)
      have hne : decimalFuel fuel (n / 10) ≠ [] := decimalFuel_ne_nil _ _ hlt
      have hpos : 0 < (decimalFuel fuel (n / 10)).length := List.length_pos.mpr hne
      refine ⟨?_, ?_, ?_, ?_⟩
      · rw [readDecimal_append, h1]
        simp [digitValue, digitChar_toNat _ hmod]
        omega
      · intro c hc
        rcases List.mem_append.mp hc with hc | hc
        · exact h2 c hc
        · simp at hc
          subst hc
          simp [isDecimalDigit, digitChar_toNat _ hmod]
          omega
      · simp only [List.length_append, List.length_singleton, pow_succ]
        omega
      · intro _
        simp only [List.length_append, List.length_singleton, Nat.add_sub_cancel]
        have h5 := h4 (by omega)
        obtain ⟨m, hm⟩ : ∃ m, (decimalFuel fuel (n / 10)).length = m + 1 := ⟨_, (Nat.succ_pred_eq_of_pos hpos).symm⟩
        rw [hm] at h5 ⊢
        simp only [Nat.add_sub_cancel] at h5
        rw [pow_succ]
        omega

theorem toInt_of_le (z : Nat) (h : z ≤ INT_MAX) : toInt z = (z : Int) := by
  unfold INT_MAX at h
  unfold toInt
  have : z % 4294967296 = z := Nat.mod_eq_of_lt (by omega)
  rw [this]
  simp
  omega

theorem readDecimal_zeros (n : Nat) (s : List Char) :
    readDecimal (List.replicate n '0' ++ s) = readDecimal s := by
  have h : ∀ m : Nat, List.foldl (fun acc c => 10 * acc + digitValue c) 0 (List.replicate m '0') = 0 := by
    intro m
    induction m with
    | zero => rfl
    | succ m ih => rw [List.replicate_succ, List.foldl_cons]; exact ih
  unfold readDecimal
  rw [List.foldl_append, h]

/-! ## The frame loop: lemmas -/

theorem frameLoop_append (w : World Img Intr R L Pts) (param : Parameters) (i : Int)
    (done rest : List (Frame Img Intr)) (v : LoopVars Intr R L) :
    frameLoop w param i (done ++ rest) v =
      ((frameLoop w param i done v).1 ++
          (frameLoop w param i rest (frameLoop w param i done v).2).1,
        (frameLoop w param i rest (frameLoop w param i done v).2).2) := by
  induction done generalizing v with
  | nil => simp [frameLoop]
  | cons f done ih => simp [frameLoop, ih]

theorem frameLoop_frameCounter (w : World Img Intr R L Pts) (param : Parameters) (i : Int)
    (feed : List (Frame Img Intr)) (v : LoopVars Intr R L) :
    (frameLoop w param i feed v).2.frameCounter = v.frameCounter + feed.length := by
  induction feed generalizing v with
  | nil => simp [frameLoop]
  | cons f feed ih => simp [frameLoop, ih]; omega

theorem frameLoop_events (w : World Img Intr R L Pts) (param : Parameters) (i : Int)
    (feed : List (Frame Img Intr)) (v : LoopVars Intr R L) :
    ∃ rs : List R,
      (frameLoop w param i feed v).2.vLocalizationResults = v.vLocalizationResults ++ rs ∧
      rs.length = feed.length ∧
      (frameLoop w param i feed v).1 =
        ((feed.zip rs).enumFrom v.frameCounter).flatMap
          (fun x => frameEvents w i x.1 x.2.1 x.2.2) := by
  induction feed generalizing v with
  | nil => exact ⟨[], by simp [frameLoop]⟩
  | cons f feed ih =>
    obtain ⟨rs, h1, h2, h3⟩ := ih
      { localizer := (w.localize v.localizer f.imageGrey param f.hasIntrinsics
          (f.queryIntrinsics.getD v.queryIntrinsics)).1
        queryIntrinsics := (w.localize v.localizer f.imageGrey param f.hasIntrinsics
          (f.queryIntrinsics.getD v.queryIntrinsics)).2.1
        frameCounter := v.frameCounter + 1
        stats := v.stats ++ [w.elapsed i v.frameCounter]
        vLocalizationResults := v.vLocalizationResults ++
          [(w.localize v.localizer f.imageGrey param f.hasIntrinsics
            (f.queryIntrinsics.getD v.queryIntrinsics)).2.2] }
    refine ⟨(w.localize v.localizer f.imageGrey param f.hasIntrinsics
            (f.queryIntrinsics.getD v.queryIntrinsics)).2.2 :: rs, ?_, ?_, ?_⟩
    · simp [frameLoop, h1]
    · simp [h2]
    · simp only [frameLoop, h3]
      simp [List.enumFrom, List.flatMap_cons, frameEvents]
      rfl

theorem mem_frameEvents (w : World Img Intr R L Pts) (i : Int) (k : Nat) (f : Frame Img Intr)
    (r : R) (e : Event Img Intr R Pts) (h : e ∈ frameEvents w i k f r) :
    (∃ s, e = Event.cout s) ∨ e = Event.localize i f r := by
  simp only [frameEvents, List.mem_cons, List.mem_singleton, List.not_mem_nil, or_false] at h
  rcases h with h | h | h | h | h
  · exact Or.inl ⟨_, h⟩
  · exact Or.inl ⟨_, h⟩
  · exact Or.inl ⟨_, h⟩
  · exact Or.inr h
  · exact Or.inl ⟨_, h⟩

theorem mem_frameLoop (w : World Img Intr R L Pts) (param : Parameters) (i : Int)
    (feed : List (Frame Img Intr)) (v : LoopVars Intr R L) (e : Event Img Intr R Pts)
    (h : e ∈ (frameLoop w param i feed v).1) :
    (∃ s, e = Event.cout s) ∨ ∃ f r, e = Event.localize i f r := by
  obtain ⟨rs, -, -, h3⟩ := frameLoop_events w param i feed v
  rw [h3, List.mem_flatMap] at h
  obtain ⟨x, -, hx⟩ := h
  rcases mem_frameEvents w i _ _ _ e hx with h | h
  · exact Or.inl h
  · exact Or.inr ⟨_, _, h⟩

/-! ## The camera loop: lemmas -/

theorem cameraLoop_induction (w : World Img Intr R L Pts) (o : Options) (param : Parameters)
    {motive : Nat → Int → L → List (Event Img Intr R Pts) × LoopExit L → Prop}
    (zero : ∀ i l, motive 0 i l ([], LoopExit.finished l))
    (done : ∀ fuel i l, ¬ toSizeT i < o.nCam → motive (fuel + 1) i l ([], LoopExit.finished l))
    (fail : ∀ fuel i l, toSizeT i < o.nCam →
      w.feedProvider (subMediaFilepath o i) (calibFile o i) = none →
      motive (fuel + 1) i l
        ([Event.feedProvider i (subMediaFilepath o i) (calibFile o i) false,
          Event.cerr "ERROR while initializing the FeedProvider!"],
         LoopExit.returned ExitStatus.EXIT_FAILURE))
    (last : ∀ fuel i l feed, toSizeT i < o.nCam →
      w.feedProvider (subMediaFilepath o i) (calibFile o i) = some feed →
      i = (INT_MAX : Int) →
      motive (fuel + 1) i l (cameraBody w o param i l feed, LoopExit.overflow))
    (next : ∀ fuel i l feed rest, toSizeT i < o.nCam →
      w.feedProvider (subMediaFilepath o i) (calibFile o i) = some feed →
      i ≠ (INT_MAX : Int) →
      rest = cameraLoop w o param fuel (i + 1)
        (frameLoop w param i feed (initialVars w l)).2.localizer →
      motive fuel (i + 1) (frameLoop w param i feed (initialVars w l)).2.localizer rest →
      motive (fuel + 1) i l (cameraBody w o param i l feed ++ rest.1, rest.2))
    (fuel : Nat) (i : Int) (l : L) : motive fuel i l (cameraLoop w o param fuel i l) := by
  induction fuel generalizing i l with
  | zero => exact zero i l
  | succ fuel ih =>
    unfold cameraLoop
    by_cases h : toSizeT i < o.nCam
    · simp only [h, if_true]
      cases hf : w.feedProvider (subMediaFilepath o i) (calibFile o i) with
      | none => exact fail fuel i l h hf
      | some feed =>
        by_cases hi : i = (INT_MAX : Int)
        · simp only [hi, if_true]
          rw [hi] at h hf
          have := last fuel i l feed (hi ▸ h) (hi ▸ hf) hi
          rw [hi] at this
          exact this
        · simp only [hi, if_false]
          exact next fuel i l feed _ h hf hi rfl (ih _ _)
    · simp only [h, if_false]
      exact done fuel i l h

theorem cameraLoop_more_fuel (w : World Img Intr R L Pts) (o : Options) (param : Parameters)
    (fuel : Nat) :
    ∀ (i : Int) (l : L), 0 ≤ i → i ≤ (INT_MAX : Int) → o.nCam ≤ i.toNat + fuel →
      cameraLoop w o param (fuel + 1) i l = cameraLoop w o param fuel i l := by
  induction fuel with
  | zero =>
    intro i l h0 h1 h2
    have hn : ¬ toSizeT i < o.nCam := by
      unfold toSizeT
      unfold INT_MAX at h1
      rw [Int.emod_eq_of_lt h0 (by omega)]
      omega
    simp [cameraLoop, hn]
  | succ fuel ih =>
    intro i l h0 h1 h2
    rw [cameraLoop]
    conv => rhs; rw [cameraLoop]
    by_cases hlt : toSizeT i < o.nCam
    · simp only [hlt, if_true]
      cases w.feedProvider (subMediaFilepath o i) (calibFile o i) with
      | none => rfl
      | some feed =>
        by_cases hi : i = (INT_MAX : Int)
        · simp only [hi, if_true]
        · simp only [hi, if_false]
          rw [ih (i + 1) _ (by omega) (by omega) (by omega)]
    · simp only [hlt, if_false]

/-- The bound `nCam` given by `main` to the camera loop is never the reason why the loop
stops: a larger bound gives the same run. -/
theorem cameraLoop_fuel_exact (w : World Img Intr R L Pts) (o : Options) (param : Parameters)
    (l : L) (extra : Nat) :
    cameraLoop w o param (o.nCam + extra) 0 l = cameraLoop w o param o.nCam 0 l := by
  induction extra with
  | zero => rfl
  | succ extra ih =>
    rw [← Nat.add_assoc, cameraLoop_more_fuel w o param (o.nCam + extra) 0 l (le_refl _)
      (by unfold INT_MAX; omega) (by simp), ih]

theorem mem_cameraBody (w : World Img Intr R L Pts) (o : Options) (param : Parameters) (i : Int)
    (l : L) (feed : List (Frame Img Intr)) (e : Event Img Intr R Pts)
    (h : e ∈ cameraBody w o param i l feed) :
    (∃ s, e = Event.cout s) ∨ (∃ a b c d, e = Event.coutStat a b c d) ∨
    e = Event.feedProvider i (subMediaFilepath o i) (calibFile o i) true ∨
    (∃ f r, e = Event.localize i f r) ∨
    e = Event.setTrackingResult
      (frameLoop w param i feed (initialVars w l)).2.vLocalizationResults i := by
  simp only [cameraBody, timeStats, List.mem_append, List.mem_cons, List.mem_singleton,
    List.not_mem_nil, or_false] at h
  rcases h with ((h | h) | h) | h
  · exact Or.inr (Or.inr (Or.inl h))
  · rcases mem_frameLoop w param i feed _ e h with h | h
    · exact Or.inl h
    · exact Or.inr (Or.inr (Or.inr (Or.inl h)))
  · exact Or.inr (Or.inr (Or.inr (Or.inr h)))
  · rcases h with h | h | h | h | h | h
    · exact Or.inl ⟨_, h⟩
    · exact Or.inl ⟨_, h⟩
    · exact Or.inr (Or.inl ⟨_, _, _, _, h⟩)
    · exact Or.inr (Or.inl ⟨_, _, _, _, h⟩)
    · exact Or.inr (Or.inl ⟨_, _, _, _, h⟩)
    · exact Or.inr (Or.inl ⟨_, _, _, _, h⟩)

theorem cameraBody_sound (w : World Img Intr R L Pts) (o : Options) (param : Parameters)
    (i : Int) (l : L) (feed : List (Frame Img Intr)) (e : Event Img Intr R Pts)
    (h : e ∈ cameraBody w o param i l feed) :
    (isRigCall e = true → isSetTrackingResult e = true) ∧
    (∀ k, cameraOf e = some k → k = i) ∧
    (∀ k s c, e ≠ Event.feedProvider k s c false) := by
  rcases mem_cameraBody w o param i l feed e h with
    ⟨s, rfl⟩ | ⟨a, b, c, d, rfl⟩ | rfl | ⟨f, r, rfl⟩ | rfl <;>
  simp [isRigCall, isSetTrackingResult, cameraOf]

theorem cameraLoop_sound (w : World Img Intr R L Pts) (o : Options) (param : Parameters)
    (fuel : Nat) (i : Int) (l : L) :
    ∀ e ∈ (cameraLoop w o param fuel i l).1,
      (isRigCall e = true → isSetTrackingResult e = true) ∧
      (∀ k, cameraOf e = some k → i ≤ k) := by
  refine cameraLoop_induction w o param
    (motive := fun _ i _ r => ∀ e ∈ r.1,
      (isRigCall e = true → isSetTrackingResult e = true) ∧
      (∀ k, cameraOf e = some k → i ≤ k)) ?_ ?_ ?_ ?_ ?_ fuel i l
  · intro i l e he; simp at he
  · intro _ i l _ e he; simp at he
  · intro _ i l _ _ e he
    simp only [List.mem_cons, List.mem_singleton, List.not_mem_nil, or_false] at he
    rcases he with rfl | rfl <;> simp [isRigCall, cameraOf]
  · intro _ i l feed _ _ _ e he
    obtain ⟨h1, h2, -⟩ := cameraBody_sound w o param i l feed e he
    exact ⟨h1, fun k hk => le_of_eq (h2 k hk).symm⟩
  · intro _ i l feed rest _ _ _ _ ih e he
    rcases List.mem_append.mp he with he | he
    · obtain ⟨h1, h2, -⟩ := cameraBody_sound w o param i l feed e he
      exact ⟨h1, fun k hk => le_of_eq (h2 k hk).symm⟩
    · obtain ⟨h1, h2⟩ := ih e he
      exact ⟨h1, fun k hk => by have := h2 k hk; omega⟩

/-! ## The shape of a run -/

theorem main_cases (w : World Img Intr R L Pts) :
    (∃ e, w.parseThrows = some e ∧
      main w = ⟨[Event.parse_command_line (some e)] ++ handler w e,
        Outcome.returned ExitStatus.EXIT_FAILURE⟩) ∨
    (w.parseThrows = none ∧ (w.helpCount ≠ 0 ∨ w.argc = 1) ∧
      main w = ⟨[Event.parse_command_line none, Event.cout w.descText],
        Outcome.returned ExitStatus.EXIT_SUCCESS⟩) ∨
    (∃ e, w.parseThrows = none ∧ ¬ (w.helpCount ≠ 0 ∨ w.argc = 1) ∧ w.notifyThrows = some e ∧
      main w = ⟨[Event.parse_command_line none, Event.notify (some e)] ++ handler w e,
        Outcome.returned ExitStatus.EXIT_FAILURE⟩) ∨
    (w.parseThrows = none ∧ ¬ (w.helpCount ≠ 0 ∨ w.argc = 1) ∧ w.notifyThrows = none ∧
      w.localizerInit w.options.sfmFilePath w.options.descriptorsFolder = none ∧
      main w = ⟨startup w.options (parameters w.options) false
          ++ [Event.cerr "ERROR while initializing the localizer!"],
        Outcome.returned ExitStatus.EXIT_FAILURE⟩) ∨
    (∃ l, w.parseThrows = none ∧ ¬ (w.helpCount ≠ 0 ∨ w.argc = 1) ∧ w.notifyThrows = none ∧
      w.localizerInit w.options.sfmFilePath w.options.descriptorsFolder = some l ∧
      main w = ⟨startup w.options (parameters w.options) true ++ exporter w w.options l
          ++ (cameraLoop w w.options (parameters w.options) w.options.nCam 0 l).1
          ++ calibration (cameraLoop w w.options (parameters w.options) w.options.nCam 0 l).2,
        ending (cameraLoop w w.options (parameters w.options) w.options.nCam 0 l).2⟩) := by
  unfold main
  cases hp : w.parseThrows with
  | some e => exact Or.inl ⟨e, rfl, rfl⟩
  | none =>
    by_cases hh : w.helpCount ≠ 0 ∨ w.argc = 1
    · exact Or.inr (Or.inl ⟨rfl, hh, by simp only [hh, if_true]⟩)
    · cases hn : w.notifyThrows with
      | some e => exact Or.inr (Or.inr (Or.inl ⟨e, rfl, hh, rfl, by simp only [hh, if_false]⟩))
      | none =>
        cases hl : w.localizerInit w.options.sfmFilePath w.options.descriptorsFolder with
        | none =>
          exact Or.inr (Or.inr (Or.inr (Or.inl ⟨rfl, hh, rfl, rfl, by simp only [hh, if_false, hl]⟩)))
        | some l =>
          exact Or.inr (Or.inr (Or.inr (Or.inr ⟨l, rfl, hh, rfl, rfl, by simp only [hh, if_false, hl]⟩)))

theorem calibration_returned (st : ExitStatus) :
    (calibration (LoopExit.returned st : LoopExit L) : List (Event Img Intr R Pts)) = [] := rfl

theorem calibration_overflow :
    (calibration (LoopExit.overflow : LoopExit L) : List (Event Img Intr R Pts)) = [] := rfl

theorem rigCalls_nil : rigCalls ([] : List (Event Img Intr R Pts)) = [] := rfl

theorem rigCalls_append (a b : List (Event Img Intr R Pts)) :
    rigCalls (a ++ b) = rigCalls a ++ rigCalls b := by
  simp [rigCalls]

theorem rigCalls_handler (w : World Img Intr R L Pts) (e : PoException) :
    rigCalls (handler w e) = [] := by
  simp [rigCalls, handler, isRigCall]

theorem rigCalls_startup (o : Options) (param : Parameters) (b : Bool) :
    rigCalls (startup o param b : List (Event Img Intr R Pts)) = [] := by
  simp [rigCalls, startup, banner, isRigCall]

theorem rigCalls_exporter (w : World Img Intr R L Pts) (o : Options) (l : L) :
    rigCalls (exporter w o l) = [] := by
  unfold exporter
  split <;> simp [rigCalls, isRigCall]

theorem rigCalls_cameraLoop (w : World Img Intr R L Pts) (o : Options) (param : Parameters)
    (fuel : Nat) (i : Int) (l : L) :
    ∀ e ∈ rigCalls (cameraLoop w o param fuel i l).1, isSetTrackingResult e = true := by
  intro e he
  simp only [rigCalls, List.mem_filter] at he
  exact (cameraLoop_sound w o param fuel i l e he.1).1 he.2

theorem toSizeT_of_nonneg (i : Int) (h0 : 0 ≤ i) (h1 : i ≤ (INT_MAX : Int)) :
    toSizeT i = i.toNat := by
  unfold toSizeT
  unfold INT_MAX at h1
  rw [Int.emod_eq_of_lt h0 (by omega)]

theorem setTrackingCameras_append (a b : List (Event Img Intr R Pts)) :
    setTrackingCameras (a ++ b) = setTrackingCameras a ++ setTrackingCameras b := by
  simp [setTrackingCameras]

theorem mem_setTrackingCameras (t : List (Event Img Intr R Pts)) (i : Int) :
    i ∈ setTrackingCameras t ↔ ∃ track, Event.setTrackingResult track i ∈ t := by
  simp only [setTrackingCameras, List.mem_filterMap]
  constructor
  · rintro ⟨e, he, h⟩
    cases e <;> simp at h
    subst h
    exact ⟨_, he⟩
  · rintro ⟨track, h⟩
    exact ⟨_, h, rfl⟩

theorem setTrackingCameras_frameLoop (w : World Img Intr R L Pts) (param : Parameters)
    (i : Int) (feed : List (Frame Img Intr)) (v : LoopVars Intr R L) :
    setTrackingCameras (frameLoop w param i feed v).1 = [] := by
  simp only [setTrackingCameras, List.filterMap_eq_nil_iff]
  intro e he
  rcases mem_frameLoop w param i feed v e he with ⟨s, rfl⟩ | ⟨f, r, rfl⟩ <;> rfl

theorem setTrackingCameras_cameraBody (w : World Img Intr R L Pts) (o : Options)
    (param : Parameters) (i : Int) (l : L) (feed : List (Frame Img Intr)) :
    setTrackingCameras (cameraBody w o param i l feed) = [i] := by
  simp only [cameraBody, setTrackingCameras_append, setTrackingCameras_frameLoop]
  simp [setTrackingCameras, timeStats]

theorem cameraLoop_finished_cameras (w : World Img Intr R L Pts) (o : Options)
    (param : Parameters) (fuel : Nat) (i : Int) (l : L) :
    0 ≤ i → i ≤ (INT_MAX : Int) → i.toNat + fuel = o.nCam →
    ∀ l2, (cameraLoop w o param fuel i l).2 = LoopExit.finished l2 →
      setTrackingCameras (cameraLoop w o param fuel i l).1 =
        (List.range' i.toNat fuel).map Int.ofNat := by
  refine cameraLoop_induction w o param
    (motive := fun fuel i _ r => 0 ≤ i → i ≤ (INT_MAX : Int) → i.toNat + fuel = o.nCam →
      ∀ l2, r.2 = LoopExit.finished l2 →
        setTrackingCameras r.1 = (List.range' i.toNat fuel).map Int.ofNat)
    ?_ ?_ ?_ ?_ ?_ fuel i l
  · intro i l _ _ _ _ _; rfl
  · intro fuel i l h h0 h1 h2 _ _
    rw [toSizeT_of_nonneg i h0 h1] at h
    omega
  · intro fuel i l _ _ _ _ _ l2 h; simp at h
  · intro fuel i l feed _ _ _ _ _ _ l2 h; simp at h
  · intro fuel i l feed rest _ _ hi _ ih h0 h1 h2 l2 hfin
    have h3 : (i + 1).toNat = i.toNat + 1 := by omega
    have h4 := ih (by omega) (by omega) (by omega) l2 hfin
    rw [setTrackingCameras_append, setTrackingCameras_cameraBody, h4, h3, List.range'_succ]
    simp [Int.toNat_of_nonneg h0]

theorem toSizeT_INT_MAX : toSizeT (INT_MAX : Int) = INT_MAX := by decide

theorem cameraLoop_no_overflow (w : World Img Intr R L Pts) (o : Options)
    (param : Parameters) (hn : o.nCam ≤ INT_MAX) (fuel : Nat) (i : Int) (l : L) :
    (cameraLoop w o param fuel i l).2 ≠ LoopExit.overflow := by
  refine cameraLoop_induction w o param
    (motive := fun _ _ _ r => r.2 ≠ LoopExit.overflow) ?_ ?_ ?_ ?_ ?_ fuel i l
  · intro i l; simp
  · intro _ i l _; simp
  · intro _ i l _ _; simp
  · intro _ i l feed h _ hi
    rw [hi, toSizeT_INT_MAX] at h
    omega
  · intro _ i l feed rest _ _ _ _ ih
    exact ih

theorem split_unique {α : Type} {a : α} {x1 y1 : List α} (hx : a ∉ x1) (hy : a ∉ y1) :
    ∀ x2 y2 : List α, x1 ++ a :: y1 = x2 ++ a :: y2 → x2 = x1 ∧ y2 = y1 := by
  induction x1 with
  | nil =>
    intro x2 y2 h
    cases x2 with
    | nil => simp at h; exact ⟨rfl, h.symm⟩
    | cons b x2 =>
      simp at h
      obtain ⟨rfl, h⟩ := h
      exact absurd (by rw [h]; simp) hy
  | cons c x1 ih =>
    intro x2 y2 h
    cases x2 with
    | nil =>
      simp at h
      obtain ⟨rfl, -⟩ := h
      exact absurd (List.mem_cons_self _ _) hx
    | cons b x2 =>
      simp at h
      obtain ⟨rfl, h⟩ := h
      obtain ⟨h1, h2⟩ := ih (fun hm => hx (List.mem_cons_of_mem _ hm)) x2 y2 h
      exact ⟨by rw [h1], h2⟩

theorem startup_plain (o : Options) (param : Parameters) (b : Bool) :
    ∀ e ∈ (startup o param b : List (Event Img Intr R Pts)),
      cameraOf e = none ∧ isRigCall e = false := by
  intro e he
  simp only [startup, banner, List.mem_append, List.mem_cons, List.mem_singleton,
    List.not_mem_nil, or_false] at he
  rcases he with (he | he) | he
  · rcases he with rfl | rfl <;> exact ⟨rfl, rfl⟩
  · rcases he with rfl | rfl | rfl | rfl | rfl | rfl <;> exact ⟨rfl, rfl⟩
  · subst he; exact ⟨rfl, rfl⟩

theorem prelude_plain (w : World Img Intr R L Pts) (o : Options) (param : Parameters)
    (b : Bool) (l : L) :
    ∀ e ∈ startup o param b ++ exporter w o l, cameraOf e = none ∧ isRigCall e = false := by
  intro e he
  rcases List.mem_append.mp he with he | he
  · exact startup_plain o param b e he
  · unfold exporter at he
    split at he
    · simp only [List.mem_cons, List.mem_singleton, List.not_mem_nil, or_false] at he
      rcases he with rfl | rfl <;> exact ⟨rfl, rfl⟩
    · simp at he

theorem setTrackingCameras_plain (t : List (Event Img Intr R Pts))
    (h : ∀ e ∈ t, cameraOf e = none ∧ isRigCall e = false) : setTrackingCameras t = [] := by
  simp only [setTrackingCameras, List.filterMap_eq_nil_iff]
  intro e he
  have := (h e he).1
  cases e <;> simp [cameraOf] at this ⊢

theorem initializeCalibration_not_mem_plain (t : List (Event Img Intr R Pts))
    (h : ∀ e ∈ t, cameraOf e = none ∧ isRigCall e = false) :
    Event.initializeCalibration ∉ t := by
  intro hm
  have := (h _ hm).2
  simp [isRigCall] at this

theorem initializeCalibration_not_mem_cameraLoop (w : World Img Intr R L Pts) (o : Options)
    (param : Parameters) (fuel : Nat) (i : Int) (l : L) :
    Event.initializeCalibration ∉ (cameraLoop w o param fuel i l).1 := by
  intro hm
  have := (cameraLoop_sound w o param fuel i l _ hm).1 rfl
  simp [isSetTrackingResult] at this

theorem before_initialization (w : World Img Intr R L Pts)
    (before after : List (Event Img Intr R Pts))
    (h : (main w).trace = before ++ Event.initializeCalibration :: after) :
    ∃ l l2, w.localizerInit w.options.sfmFilePath w.options.descriptorsFolder = some l ∧
      (cameraLoop w w.options (parameters w.options) w.options.nCam 0 l).2 =
        LoopExit.finished l2 ∧
      before = startup w.options (parameters w.options) true ++ exporter w w.options l
        ++ (cameraLoop w w.options (parameters w.options) w.options.nCam 0 l).1
        ++ [Event.cout "Rig calibration initialization"] ∧
      after = [Event.cout "Rig calibration optimization", Event.optimizeCalibration] := by
  have hm : Event.initializeCalibration ∈ (main w).trace := by rw [h]; simp
  rcases main_cases w with ⟨e, -, h2⟩ | ⟨-, -, h2⟩ | ⟨e, -, -, -, h2⟩ | ⟨-, -, -, -, h2⟩ |
    ⟨l, -, -, -, hl, h2⟩
  · rw [h2] at hm; simp [handler] at hm
  · rw [h2] at hm; simp at hm
  · rw [h2] at hm; simp [handler] at hm
  · rw [h2] at hm; simp [startup, banner] at hm
  · have hp := initializeCalibration_not_mem_plain _
      (prelude_plain w w.options (parameters w.options) true l)
    have hc := initializeCalibration_not_mem_cameraLoop w w.options (parameters w.options)
      w.options.nCam 0 l
    rw [h2] at hm h
    cases hx : (cameraLoop w w.options (parameters w.options) w.options.nCam 0 l).2 with
    | finished l2 =>
      refine ⟨l, l2, hl, hx, ?_⟩
      rw [hx] at h
      simp only [calibration] at h
      have hsplit : startup w.options (parameters w.options) true ++ exporter w w.options l
          ++ (cameraLoop w w.options (parameters w.options) w.options.nCam 0 l).1
          ++ [Event.cout "Rig calibration initialization", Event.initializeCalibration,
              Event.cout "Rig calibration optimization", Event.optimizeCalibration]
          = (startup w.options (parameters w.options) true ++ exporter w w.options l
          ++ (cameraLoop w w.options (parameters w.options) w.options.nCam 0 l).1
          ++ [Event.cout "Rig calibration initialization"]) ++ Event.initializeCalibration ::
            [Event.cout "Rig calibration optimization", Event.optimizeCalibration] := by
        simp
      rw [hsplit] at h
      refine split_unique ?_ ?_ before after h
      · intro hmem
        rcases List.mem_append.mp hmem with hmem | hmem
        · rcases List.mem_append.mp hmem with hmem | hmem
          · exact hp hmem
          · exact hc hmem
        · simp at hmem
      · simp
    | returned st =>
      rw [hx, calibration_returned, List.append_nil] at hm
      rcases List.mem_append.mp hm with hm | hm
      · exact absurd hm hp
      · exact absurd hm hc
    | overflow =>
      rw [hx, calibration_overflow, List.append_nil] at hm
      rcases List.mem_append.mp hm with hm | hm
      · exact absurd hm hp
      · exact absurd hm hc

theorem setTrackingCameras_before (w : World Img Intr R L Pts)
    (before after : List (Event Img Intr R Pts))
    (h : (main w).trace = before ++ Event.initializeCalibration :: after) :
    setTrackingCameras before = (List.range w.options.nCam).map Int.ofNat := by
  obtain ⟨l, l2, -, hx, hb, -⟩ := before_initialization w before after h
  rw [hb]
  simp only [setTrackingCameras_append,
    setTrackingCameras_plain _ (prelude_plain w w.options (parameters w.options) true l)]
  have := cameraLoop_finished_cameras w w.options (parameters w.options) w.options.nCam 0 l
    (le_refl _) (by unfold INT_MAX; omega) (by simp) l2 hx
  rw [this, List.range_eq_range']
  simp [setTrackingCameras]

theorem cameraLoop_setTrackingResult (w : World Img Intr R L Pts) (o : Options)
    (param : Parameters) (track : List R) (i : Int) (fuel : Nat) (j : Int) (l : L) :
    Event.setTrackingResult track i ∈ (cameraLoop w o param fuel j l).1 →
    j ≤ i ∧ toSizeT i < o.nCam ∧ ∃ feed l2 before after,
      w.feedProvider (subMediaFilepath o i) (calibFile o i) = some feed ∧
      track = (frameLoop w param i feed (initialVars w l2)).2.vLocalizationResults ∧
      (cameraLoop w o param fuel j l).1 = before ++ cameraBody w o param i l2 feed ++ after ∧
      (∀ e ∈ before, ∀ k, cameraOf e = some k → k < i) ∧
      (∀ e ∈ after, ∀ k, cameraOf e = some k → i < k) := by
  refine cameraLoop_induction w o param
    (motive := fun _ j _ r => Event.setTrackingResult track i ∈ r.1 →
      j ≤ i ∧ toSizeT i < o.nCam ∧ ∃ feed l2 before after,
        w.feedProvider (subMediaFilepath o i) (calibFile o i) = some feed ∧
        track = (frameLoop w param i feed (initialVars w l2)).2.vLocalizationResults ∧
        r.1 = before ++ cameraBody w o param i l2 feed ++ after ∧
        (∀ e ∈ before, ∀ k, cameraOf e = some k → k < i) ∧
        (∀ e ∈ after, ∀ k, cameraOf e = some k → i < k)) ?_ ?_ ?_ ?_ ?_ fuel j l
  · intro j l h; simp at h
  · intro _ j l _ h; simp at h
  · intro _ j l _ _ h; simp at h
  · intro _ j l feed hlt hf _ h
    rcases mem_cameraBody w o param j l feed _ h with
      ⟨s, h⟩ | ⟨a, b, c, d, h⟩ | h | ⟨f, r, h⟩ | h <;> try (simp at h)
    obtain ⟨rfl, rfl⟩ := h
    exact ⟨le_refl _, hlt, feed, l, [], [], hf, rfl, by simp, by simp, by simp⟩
  · intro fuel j l feed rest hlt hf _ hrest ih h
    rcases List.mem_append.mp h with h | h
    · rcases mem_cameraBody w o param j l feed _ h with
        ⟨s, h⟩ | ⟨a, b, c, d, h⟩ | h | ⟨f, r, h⟩ | h <;> try (simp at h)
      obtain ⟨rfl, rfl⟩ := h
      refine ⟨le_refl _, hlt, feed, l, [], rest.1, hf, rfl, by simp, by simp, ?_⟩
      intro e he k hk
      rw [hrest] at he
      have := (cameraLoop_sound w o param fuel _ _ e he).2 k hk
      omega
    · obtain ⟨h1, h2, feed2, l2, before, after, h3, h4, h5, h6, h7⟩ := ih h
      refine ⟨by omega, h2, feed2, l2, cameraBody w o param j l feed ++ before, after, h3, h4,
        by simp only [h5, List.append_assoc], ?_, h7⟩
      intro e he k hk
      rcases List.mem_append.mp he with he | he
      · have := (cameraBody_sound w o param j l feed e he).2.1 k hk
        omega
      · exact h6 e he k hk

theorem main_setTrackingResult (w : World Img Intr R L Pts) (track : List R) (i : Int)
    (h : Event.setTrackingResult track i ∈ (main w).trace) :
    0 ≤ i ∧ toSizeT i < w.options.nCam ∧ ∃ feed l2 before after,
      feedOf w i = some feed ∧
      track = (frameLoop w (parameters w.options) i feed
        (initialVars w l2)).2.vLocalizationResults ∧
      (main w).trace =
        before ++ cameraBody w w.options (parameters w.options) i l2 feed ++ after ∧
      (∀ e ∈ before, ∀ k, cameraOf e = some k → k < i) ∧
      (∀ e ∈ after, ∀ k, cameraOf e = some k → i < k) := by
  rcases main_cases w with ⟨e, -, h2⟩ | ⟨-, -, h2⟩ | ⟨e, -, -, -, h2⟩ | ⟨-, -, -, -, h2⟩ |
    ⟨l, -, -, -, hl, h2⟩
  · rw [h2] at h; simp [handler] at h
  · rw [h2] at h; simp at h
  · rw [h2] at h; simp [handler] at h
  · rw [h2] at h; simp [startup, banner] at h
  · have hp := prelude_plain w w.options (parameters w.options) true l
    have hcal : ∀ e ∈ (calibration (cameraLoop w w.options (parameters w.options)
        w.options.nCam 0 l).2 : List (Event Img Intr R Pts)), cameraOf e = none := by
      intro e he
      cases hx : (cameraLoop w w.options (parameters w.options) w.options.nCam 0 l).2 with
      | finished l2 =>
        rw [hx] at he
        simp only [calibration, List.mem_cons, List.mem_singleton, List.not_mem_nil,
          or_false] at he
        rcases he with rfl | rfl | rfl | rfl <;> rfl
      | returned st => rw [hx] at he; simp [calibration] at he
      | overflow => rw [hx] at he; simp [calibration] at he
    rw [h2] at h ⊢
    dsimp only at h ⊢
    have hin : Event.setTrackingResult track i ∈
        (cameraLoop w w.options (parameters w.options) w.options.nCam 0 l).1 := by
      rcases List.mem_append.mp h with h | h
      · rcases List.mem_append.mp h with h | h
        · have := (hp _ h).1
          simp [cameraOf] at this
        · exact h
      · have := hcal _ h
        simp [cameraOf] at this
    obtain ⟨h0, h1, feed, l2, before, after, h3, h4, h5, h6, h7⟩ :=
      cameraLoop_setTrackingResult w w.options (parameters w.options) track i _ _ _ hin
    refine ⟨h0, h1, feed, l2,
      startup w.options (parameters w.options) true ++ exporter w w.options l ++ before,
      after ++ calibration (cameraLoop w w.options (parameters w.options)
        w.options.nCam 0 l).2, h3, h4, by simp only [h5, List.append_assoc], ?_, ?_⟩
    · intro e he k hk
      rcases List.mem_append.mp he with he | he
      · have := (hp e he).1
        rw [this] at hk
        simp at hk
      · exact h6 e he k hk
    · intro e he k hk
      rcases List.mem_append.mp he with he | he
      · exact h7 e he k hk
      · have := hcal e he
        rw [this] at hk
        simp at hk

theorem localizeCalls_append (i : Int) (a b : List (Event Img Intr R Pts)) :
    localizeCalls i (a ++ b) = localizeCalls i a ++ localizeCalls i b := by
  simp [localizeCalls]

theorem localizeCalls_other (i : Int) (t : List (Event Img Intr R Pts))
    (h : ∀ e ∈ t, ∀ k, cameraOf e = some k → k ≠ i) : localizeCalls i t = [] := by
  simp only [localizeCalls, List.filterMap_eq_nil_iff]
  intro e he
  cases e <;> try rfl
  next j f r =>
    have := h _ he j rfl
    simp [this]

theorem localizeCalls_frames (w : World Img Intr R L Pts) (i : Int) :
    ∀ (xs : List (Frame Img Intr × R)) (k : Nat),
      localizeCalls i ((xs.enumFrom k).flatMap (fun x => frameEvents w i x.1 x.2.1 x.2.2)) =
        xs := by
  intro xs
  induction xs with
  | nil => intro k; rfl
  | cons x xs ih =>
    intro k
    rw [List.enumFrom, List.flatMap_cons, localizeCalls_append, ih]
    simp [localizeCalls, frameEvents]

theorem frameLoop_initial (w : World Img Intr R L Pts) (param : Parameters) (i : Int)
    (feed : List (Frame Img Intr)) (l : L) :
    (frameLoop w param i feed (initialVars w l)).2.vLocalizationResults.length = feed.length ∧
    (frameLoop w param i feed (initialVars w l)).1 =
      ((feed.zip (frameLoop w param i feed (initialVars w l)).2.vLocalizationResults).enum).flatMap
        (fun x => frameEvents w i x.1 x.2.1 x.2.2) := by
  obtain ⟨rs, h1, h2, h3⟩ := frameLoop_events w param i feed (initialVars w l)
  have h4 : (frameLoop w param i feed (initialVars w l)).2.vLocalizationResults = rs := by
    rw [h1]; simp [initialVars]
  rw [h4]
  exact ⟨h2, by rw [h3]; rfl⟩

theorem localizeCalls_cameraBody (w : World Img Intr R L Pts) (o : Options)
    (param : Parameters) (i : Int) (l : L) (feed : List (Frame Img Intr)) :
    localizeCalls i (cameraBody w o param i l feed) =
      feed.zip (frameLoop w param i feed (initialVars w l)).2.vLocalizationResults := by
  have h := (frameLoop_initial w param i feed l).2
  simp only [cameraBody, localizeCalls_append]
  rw [h, List.enum, localizeCalls_frames]
  simp [localizeCalls, timeStats]

theorem main_track (w : World Img Intr R L Pts) (i : Int) (track : List R)
    (h : Event.setTrackingResult track i ∈ (main w).trace) :
    0 ≤ i ∧ ∃ feed, feedOf w i = some feed ∧ track.length = feed.length ∧
      localizeCalls i (main w).trace = feed.zip track := by
  obtain ⟨h0, -, feed, l2, before, after, h3, h4, h5, h6, h7⟩ :=
    main_setTrackingResult w track i h
  refine ⟨h0, feed, h3, ?_, ?_⟩
  · rw [h4]; exact (frameLoop_initial w _ i feed l2).1
  · rw [h5, localizeCalls_append, localizeCalls_append, localizeCalls_cameraBody, ← h4,
      localizeCalls_other i before (fun e he k hk => by have := h6 e he k hk; omega),
      localizeCalls_other i after (fun e he k hk => by have := h7 e he k hk; omega)]
    simp

theorem frameLoop_output (w : World Img Intr R L Pts)
    (g : L → Img → Parameters → Bool → Intr → L × Intr × R) (param : Parameters) (i : Int)
    (feed : List (Frame Img Intr)) (v v2 : LoopVars Intr R L)
    (hc : v.frameCounter = v2.frameCounter) (hs : v.stats = v2.stats) :
    (frameLoop w param i feed v).1.filter isOutput =
      (frameLoop (withLocalize w g) param i feed v2).1.filter isOutput ∧
    (frameLoop w param i feed v).2.frameCounter =
      (frameLoop (withLocalize w g) param i feed v2).2.frameCounter ∧
    (frameLoop w param i feed v).2.stats =
      (frameLoop (withLocalize w g) param i feed v2).2.stats := by
  induction feed generalizing v v2 with
  | nil => exact ⟨rfl, hc, hs⟩
  | cons f feed ih =>
    simp only [frameLoop]
    have he : (withLocalize w g).elapsed = w.elapsed := rfl
    rw [he, hc, hs]
    obtain ⟨h1, h2, h3⟩ := ih
      { localizer := (w.localize v.localizer f.imageGrey param f.hasIntrinsics
          (f.queryIntrinsics.getD v.queryIntrinsics)).1
        queryIntrinsics := (w.localize v.localizer f.imageGrey param f.hasIntrinsics
          (f.queryIntrinsics.getD v.queryIntrinsics)).2.1
        frameCounter := v2.frameCounter + 1
        stats := v2.stats ++ [w.elapsed i v2.frameCounter]
        vLocalizationResults := v.vLocalizationResults ++
          [(w.localize v.localizer f.imageGrey param f.hasIntrinsics
            (f.queryIntrinsics.getD v.queryIntrinsics)).2.2] }
      { localizer := ((withLocalize w g).localize v2.localizer f.imageGrey param
          f.hasIntrinsics (f.queryIntrinsics.getD v2.queryIntrinsics)).1
        queryIntrinsics := ((withLocalize w g).localize v2.localizer f.imageGrey param
          f.hasIntrinsics (f.queryIntrinsics.getD v2.queryIntrinsics)).2.1
        frameCounter := v2.frameCounter + 1
        stats := v2.stats ++ [w.elapsed i v2.frameCounter]
        vLocalizationResults := v2.vLocalizationResults ++
          [((withLocalize w g).localize v2.localizer f.imageGrey param f.hasIntrinsics
            (f.queryIntrinsics.getD v2.queryIntrinsics)).2.2] } rfl rfl
    refine ⟨?_, h2, h3⟩
    simp only [List.filter_append, h1]
    simp [List.filter_cons, isOutput]

theorem cameraBody_output (w : World Img Intr R L Pts)
    (g : L → Img → Parameters → Bool → Intr → L × Intr × R) (o : Options)
    (param : Parameters) (i : Int) (l l2 : L) (feed : List (Frame Img Intr)) :
    (cameraBody w o param i l feed).filter isOutput =
      (cameraBody (withLocalize w g) o param i l2 feed).filter isOutput := by
  obtain ⟨h1, h2, h3⟩ := frameLoop_output w g param i feed (initialVars w l)
    (initialVars (withLocalize w g) l2) rfl rfl
  simp only [cameraBody, timeStats, List.filter_append, h1, h2, h3]
  simp [List.filter_cons, isOutput]

theorem cameraLoop_output (w : World Img Intr R L Pts)
    (g : L → Img → Parameters → Bool → Intr → L × Intr × R) (o : Options)
    (param : Parameters) (fuel : Nat) :
    ∀ (i : Int) (l l2 : L),
      (cameraLoop w o param fuel i l).1.filter isOutput =
        (cameraLoop (withLocalize w g) o param fuel i l2).1.filter isOutput ∧
      (calibration (cameraLoop w o param fuel i l).2 : List (Event Img Intr R Pts)) =
        calibration (cameraLoop (withLocalize w g) o param fuel i l2).2 ∧
      ending (cameraLoop w o param fuel i l).2 =
        ending (cameraLoop (withLocalize w g) o param fuel i l2).2 := by
  induction fuel with
  | zero => intro i l l2; exact ⟨rfl, rfl, rfl⟩
  | succ fuel ih =>
    intro i l l2
    unfold cameraLoop
    have hfp : (withLocalize w g).feedProvider = w.feedProvider := rfl
    rw [hfp]
    by_cases h : toSizeT i < o.nCam
    · simp only [h, if_true]
      cases hf : w.feedProvider (subMediaFilepath o i) (calibFile o i) with
      | none => exact ⟨rfl, rfl, rfl⟩
      | some feed =>
        have hb := cameraBody_output w g o param i l l2 feed
        by_cases hi : i = (INT_MAX : Int)
        · simp only [hi, if_true]
          rw [hi] at hb
          refine ⟨hb, ?_, ?_⟩ <;> first | rfl | trivial
        · simp only [hi, if_false]
          obtain ⟨h1, h2, h3⟩ := ih (i + 1)
            (frameLoop w param i feed (initialVars w l)).2.localizer
            (frameLoop (withLocalize w g) param i feed
              (initialVars (withLocalize w g) l2)).2.localizer
          exact ⟨by simp only [List.filter_append, hb, h1], h2, h3⟩
    · simp only [h, if_false]
      refine ⟨?_, ?_, ?_⟩ <;> first | rfl | trivial

/-- The output of `main` does not depend on what the localizer computes. -/
theorem output_independent_of_localize (w : World Img Intr R L Pts)
    (g : L → Img → Parameters → Bool → Intr → L × Intr × R) :
    output (main (withLocalize w g)) = output (main w) := by
  unfold main
  have h1 : (withLocalize w g).parseThrows = w.parseThrows := rfl
  have h2 : (withLocalize w g).helpCount = w.helpCount := rfl
  have h3 : (withLocalize w g).argc = w.argc := rfl
  have h4 : (withLocalize w g).notifyThrows = w.notifyThrows := rfl
  have h5 : (withLocalize w g).options = w.options := rfl
  have h6 : (withLocalize w g).localizerInit = w.localizerInit := rfl
  have h7 : (withLocalize w g).descText = w.descText := rfl
  rw [h1, h2, h3, h4, h5, h6, h7]
  cases w.parseThrows with
  | some e => rfl
  | none =>
    by_cases hh : w.helpCount ≠ 0 ∨ w.argc = 1
    · simp only [hh, if_true]
    · simp only [hh, if_false]
      cases w.notifyThrows with
      | some e => rfl
      | none =>
        cases w.localizerInit w.options.sfmFilePath w.options.descriptorsFolder with
        | none => rfl
        | some l =>
          obtain ⟨c1, c2, c3⟩ := cameraLoop_output w g w.options (parameters w.options)
            w.options.nCam 0 l l
          have hex : exporter (withLocalize w g) w.options l = exporter w w.options l := rfl
          simp only [output, List.filter_append, hex, c1, c2, c3]

theorem inOrder_of_none_left (a b : Event Img Intr R Pts) (h : cameraOf a = none) :
    inOrder a b := by
  intro j k hj; rw [h] at hj; simp at hj

theorem inOrder_of_none_right (a b : Event Img Intr R Pts) (h : cameraOf b = none) :
    inOrder a b := by
  intro j k _ hk; rw [h] at hk; simp at hk

theorem frameLoop_phase (w : World Img Intr R L Pts) (param : Parameters) (i : Int)
    (feed : List (Frame Img Intr)) (v : LoopVars Intr R L) (e : Event Img Intr R Pts)
    (h : e ∈ (frameLoop w param i feed v).1) :
    (∀ k, cameraOf e = some k → k = i ∧ phase e = 1) := by
  rcases mem_frameLoop w param i feed v e h with ⟨s, rfl⟩ | ⟨f, r, rfl⟩ <;>
    simp [cameraOf, phase]

theorem cameraBody_inOrder (w : World Img Intr R L Pts) (o : Options) (param : Parameters)
    (i : Int) (l : L) (feed : List (Frame Img Intr)) :
    (cameraBody w o param i l feed).Pairwise inOrder := by
  have hts : ∀ e ∈ (timeStats (frameLoop w param i feed (initialVars w l)).2 :
      List (Event Img Intr R Pts)), cameraOf e = none := by
    intro e he
    simp only [timeStats, List.mem_cons, List.mem_singleton, List.not_mem_nil, or_false] at he
    rcases he with rfl | rfl | rfl | rfl | rfl | rfl <;> rfl
  have hfr := frameLoop_phase w param i feed (initialVars w l)
  simp only [cameraBody]
  refine List.pairwise_append.mpr ⟨List.pairwise_append.mpr
    ⟨List.pairwise_append.mpr ⟨List.pairwise_singleton _ _, ?_, ?_⟩,
      List.pairwise_singleton _ _, ?_⟩, ?_, ?_⟩
  · refine List.pairwise_of_forall_mem_list (fun a ha b hb => ?_)
    intro j k hj hk
    obtain ⟨rfl, h1⟩ := hfr a ha j hj
    obtain ⟨rfl, h2⟩ := hfr b hb k hk
    exact Or.inr ⟨rfl, by omega⟩
  · intro a ha b hb
    rw [List.mem_singleton] at ha
    subst ha
    intro j k hj hk
    obtain ⟨rfl, h2⟩ := hfr b hb k hk
    simp only [cameraOf, Option.some.injEq] at hj
    exact Or.inr ⟨hj.symm, by simp [phase]⟩
  · intro a ha b hb
    rw [List.mem_singleton] at hb
    subst hb
    rcases List.mem_append.mp ha with ha | ha
    · rw [List.mem_singleton] at ha
      subst ha
      intro j k hj hk
      simp only [cameraOf, Option.some.injEq] at hj hk
      exact Or.inr ⟨by omega, by simp [phase]⟩
    · intro j k hj hk
      obtain ⟨rfl, h1⟩ := hfr a ha j hj
      simp only [cameraOf, Option.some.injEq] at hk
      exact Or.inr ⟨hk, by rw [h1]; show 1 ≤ 2; omega⟩
  · refine List.pairwise_of_forall_mem_list (fun a ha b _ => ?_)
    exact inOrder_of_none_left a b (hts a ha)
  · intro a _ b hb
    exact inOrder_of_none_right a b (hts b hb)

theorem cameraLoop_inOrder (w : World Img Intr R L Pts) (o : Options) (param : Parameters)
    (fuel : Nat) (i : Int) (l : L) : (cameraLoop w o param fuel i l).1.Pairwise inOrder := by
  refine cameraLoop_induction w o param
    (motive := fun _ _ _ r => r.1.Pairwise inOrder) ?_ ?_ ?_ ?_ ?_ fuel i l
  · intro i l; exact List.Pairwise.nil
  · intro _ i l _; exact List.Pairwise.nil
  · intro _ i l _ _
    simp only [List.pairwise_cons, List.mem_singleton, List.not_mem_nil, List.Pairwise.nil,
      and_true]
    refine ⟨?_, by simp⟩
    rintro b rfl
    exact inOrder_of_none_right _ _ rfl
  · intro _ i l feed _ _ _
    exact cameraBody_inOrder w o param i l feed
  · intro fuel i l feed rest _ _ _ hrest ih
    rw [List.pairwise_append]
    refine ⟨cameraBody_inOrder w o param i l feed, ih, ?_⟩
    intro a ha b hb j k hj hk
    have h1 := (cameraBody_sound w o param i l feed a ha).2.1 j hj
    rw [hrest] at hb
    have h2 := (cameraLoop_sound w o param fuel _ _ b hb).2 k hk
    exact Or.inl (by omega)

theorem calibration_plain (x : LoopExit L) :
    ∀ e ∈ (calibration x : List (Event Img Intr R Pts)), cameraOf e = none := by
  intro e he
  cases x with
  | finished l2 =>
    simp only [calibration, List.mem_cons, List.mem_singleton, List.not_mem_nil,
      or_false] at he
    rcases he with rfl | rfl | rfl | rfl <;> rfl
  | returned st => simp [calibration] at he
  | overflow => simp [calibration] at he

theorem main_inOrder (w : World Img Intr R L Pts) : (main w).trace.Pairwise inOrder := by
  rcases main_cases w with ⟨e, -, h⟩ | ⟨-, -, h⟩ | ⟨e, -, -, -, h⟩ | ⟨-, -, -, -, h⟩ |
    ⟨l, -, -, -, -, h⟩
  · rw [h]
    refine List.pairwise_of_forall_mem_list (fun a ha b _ => inOrder_of_none_left a b ?_)
    simp only [handler, List.mem_append, List.mem_cons, List.mem_singleton, List.not_mem_nil,
      or_false] at ha
    rcases ha with rfl | rfl | rfl <;> rfl
  · rw [h]
    refine List.pairwise_of_forall_mem_list (fun a ha b _ => inOrder_of_none_left a b ?_)
    simp only [List.mem_cons, List.mem_singleton, List.not_mem_nil, or_false] at ha
    rcases ha with rfl | rfl <;> rfl
  · rw [h]
    refine List.pairwise_of_forall_mem_list (fun a ha b _ => inOrder_of_none_left a b ?_)
    simp only [handler, List.mem_append, List.mem_cons, List.mem_singleton, List.not_mem_nil,
      or_false] at ha
    rcases ha with (rfl | rfl) | rfl | rfl <;> rfl
  · rw [h]
    refine List.pairwise_of_forall_mem_list (fun a ha b _ => inOrder_of_none_left a b ?_)
    rcases List.mem_append.mp ha with ha | ha
    · exact (startup_plain w.options (parameters w.options) false a ha).1
    · rw [List.mem_singleton] at ha
      subst ha
      rfl
  · rw [h]
    have hp := prelude_plain w w.options (parameters w.options) true l
    have hc := @calibration_plain Img Intr R L Pts
      (cameraLoop w w.options (parameters w.options) w.options.nCam 0 l).2
    simp only [List.pairwise_append, List.mem_append]
    refine ⟨⟨?_, cameraLoop_inOrder _ _ _ _ _ _, ?_⟩, ?_, ?_⟩
    · simp only [← List.pairwise_append]
      exact List.pairwise_of_forall_mem_list
        (fun a ha b _ => inOrder_of_none_left a b (hp a ha).1)
    · intro a ha b _
      exact inOrder_of_none_left a b (hp a (List.mem_append.mpr ha)).1
    · exact List.pairwise_of_forall_mem_list
        (fun a ha b _ => inOrder_of_none_left a b (hc a ha))
    · intro a _ b hb
      exact inOrder_of_none_right a b (hc b hb)

theorem trace_inOrder (w : World Img Intr R L Pts) (p q : Nat) (a b : Event Img Intr R Pts)
    (hp : (main w).trace[p]? = some a) (hq : (main w).trace[q]? = some b) (hpq : p < q) :
    inOrder a b := by
  obtain ⟨h1, rfl⟩ := List.getElem?_eq_some_iff.mp hp
  obtain ⟨h2, rfl⟩ := List.getElem?_eq_some_iff.mp hq
  exact List.pairwise_iff_getElem.mp (main_inOrder w) p q h1 h2 hpq

theorem cameraLoop_track_follows (w : World Img Intr R L Pts) (o : Options)
    (param : Parameters) (i : Int) (f : Frame Img Intr) (r : R)
    (fuel : Nat) (j : Int) (l : L) :
    Event.localize i f r ∈ (cameraLoop w o param fuel j l).1 →
    ∃ track, Event.setTrackingResult track i ∈ (cameraLoop w o param fuel j l).1 := by
  refine cameraLoop_induction w o param
    (motive := fun _ _ _ x => Event.localize i f r ∈ x.1 →
      ∃ track, Event.setTrackingResult track i ∈ x.1) ?_ ?_ ?_ ?_ ?_ fuel j l
  · intro j l h; simp at h
  · intro _ j l _ h; simp at h
  · intro _ j l _ _ h; simp at h
  · intro _ j l feed _ _ _ h
    have := (cameraBody_sound w o param j l feed _ h).2.1 i rfl
    subst this
    exact ⟨(frameLoop w param i feed (initialVars w l)).2.vLocalizationResults,
      by simp [cameraBody]⟩
  · intro _ j l feed rest _ _ _ _ ih h
    rcases List.mem_append.mp h with h | h
    · have := (cameraBody_sound w o param j l feed _ h).2.1 i rfl
      subst this
      exact ⟨(frameLoop w param i feed (initialVars w l)).2.vLocalizationResults,
        List.mem_append.mpr (Or.inl (by simp [cameraBody]))⟩
    · obtain ⟨track, ht⟩ := ih h
      exact ⟨track, List.mem_append.mpr (Or.inr ht)⟩

theorem main_track_follows (w : World Img Intr R L Pts) (i : Int) (f : Frame Img Intr) (r : R)
    (h : Event.localize i f r ∈ (main w).trace) :
    ∃ track, Event.setTrackingResult track i ∈ (main w).trace := by
  rcases main_cases w with ⟨e, -, h2⟩ | ⟨-, -, h2⟩ | ⟨e, -, -, -, h2⟩ | ⟨-, -, -, -, h2⟩ |
    ⟨l, -, -, -, hl, h2⟩
  · rw [h2] at h; simp [handler] at h
  · rw [h2] at h; simp at h
  · rw [h2] at h; simp [handler] at h
  · rw [h2] at h; simp [startup, banner] at h
  · rw [h2] at h ⊢
    dsimp only at h ⊢
    rcases List.mem_append.mp h with h | h
    · rcases List.mem_append.mp h with h | h
      · have := (prelude_plain w w.options (parameters w.options) true l _ h).1
        simp [cameraOf] at this
      · obtain ⟨track, ht⟩ := cameraLoop_track_follows w w.options (parameters w.options)
          i f r _ _ _ h
        exact ⟨track, List.mem_append.mpr (Or.inl (List.mem_append.mpr (Or.inr ht)))⟩
    · have := calibration_plain _ _ h
      simp [cameraOf] at this

/-! ## The exit status: lemmas -/

/-- The calls on the option parser and on `localizer.init` do not occur in the camera
loop. -/
theorem cameraBody_kinds (w : World Img Intr R L Pts) (o : Options) (param : Parameters)
    (i : Int) (l : L) (feed : List (Frame Img Intr)) (e : Event Img Intr R Pts)
    (h : e ∈ cameraBody w o param i l feed) :
    (∀ x, e ≠ Event.parse_command_line x) ∧ (∀ x, e ≠ Event.notify x) ∧
    (∀ s d b, e ≠ Event.localizerInit s d b) := by
  rcases mem_cameraBody w o param i l feed e h with
    ⟨s, rfl⟩ | ⟨a, b, c, d, rfl⟩ | rfl | ⟨f, r, rfl⟩ | rfl <;> simp

theorem cameraLoop_kinds (w : World Img Intr R L Pts) (o : Options) (param : Parameters)
    (fuel : Nat) (i : Int) (l : L) :
    ∀ e ∈ (cameraLoop w o param fuel i l).1,
      (∀ x, e ≠ Event.parse_command_line x) ∧ (∀ x, e ≠ Event.notify x) ∧
      (∀ s d b, e ≠ Event.localizerInit s d b) := by
  refine cameraLoop_induction w o param
    (motive := fun _ _ _ r => ∀ e ∈ r.1,
      (∀ x, e ≠ Event.parse_command_line x) ∧ (∀ x, e ≠ Event.notify x) ∧
      (∀ s d b, e ≠ Event.localizerInit s d b)) ?_ ?_ ?_ ?_ ?_ fuel i l
  · intro i l e he; simp at he
  · intro _ i l _ e he; simp at he
  · intro _ i l _ _ e he
    simp only [List.mem_cons, List.mem_singleton, List.not_mem_nil, or_false] at he
    rcases he with rfl | rfl <;> simp
  · intro _ i l feed _ _ _ e he
    exact cameraBody_kinds w o param i l feed e he
  · intro _ i l feed rest _ _ _ _ ih e he
    rcases List.mem_append.mp he with he | he
    · exact cameraBody_kinds w o param i l feed e he
    · exact ih e he

theorem cameraLoop_returned (w : World Img Intr R L Pts) (o : Options) (param : Parameters)
    (fuel : Nat) (i : Int) (l : L) (st : ExitStatus) :
    (cameraLoop w o param fuel i l).2 = LoopExit.returned st →
    st = ExitStatus.EXIT_FAILURE ∧
      ∃ k s c, Event.feedProvider k s c false ∈ (cameraLoop w o param fuel i l).1 := by
  refine cameraLoop_induction w o param
    (motive := fun _ _ _ r => r.2 = LoopExit.returned st →
      st = ExitStatus.EXIT_FAILURE ∧ ∃ k s c, Event.feedProvider k s c false ∈ r.1)
    ?_ ?_ ?_ ?_ ?_ fuel i l
  · intro i l h; simp at h
  · intro _ i l _ h; simp at h
  · intro _ i l _ _ h
    simp only [LoopExit.returned.injEq] at h
    exact ⟨h.symm, i, subMediaFilepath o i, calibFile o i, by simp⟩
  · intro _ i l feed _ _ _ h; simp at h
  · intro _ i l feed rest _ _ _ _ ih h
    obtain ⟨h1, k, s, c, h2⟩ := ih h
    exact ⟨h1, k, s, c, List.mem_append.mpr (Or.inr h2)⟩

theorem cameraLoop_feed_failure (w : World Img Intr R L Pts) (o : Options)
    (param : Parameters) (k : Int) (s c : String) (fuel : Nat) (i : Int) (l : L) :
    0 ≤ i → i ≤ (INT_MAX : Int) →
    Event.feedProvider k s c false ∈ (cameraLoop w o param fuel i l).1 →
    i ≤ k ∧ k.toNat < o.nCam ∧
      (cameraLoop w o param fuel i l).2 = LoopExit.returned ExitStatus.EXIT_FAILURE ∧
      setTrackingCameras (cameraLoop w o param fuel i l).1 =
        (List.range' i.toNat (k.toNat - i.toNat)).map Int.ofNat := by
  refine cameraLoop_induction w o param
    (motive := fun _ i _ r => 0 ≤ i → i ≤ (INT_MAX : Int) →
      Event.feedProvider k s c false ∈ r.1 →
      i ≤ k ∧ k.toNat < o.nCam ∧ r.2 = LoopExit.returned ExitStatus.EXIT_FAILURE ∧
        setTrackingCameras r.1 = (List.range' i.toNat (k.toNat - i.toNat)).map Int.ofNat)
    ?_ ?_ ?_ ?_ ?_ fuel i l
  · intro i l _ _ h; simp at h
  · intro _ i l _ _ _ h; simp at h
  · intro _ i l hlt _ h0 h1 h
    simp only [List.mem_cons, List.mem_singleton, List.not_mem_nil, or_false] at h
    rcases h with h | h
    · simp only [Event.feedProvider.injEq] at h
      obtain ⟨rfl, -, -, -⟩ := h
      rw [toSizeT_of_nonneg k h0 h1] at hlt
      exact ⟨le_refl _, hlt, rfl, by simp [setTrackingCameras]⟩
    · simp at h
  · intro _ i l feed _ _ _ _ _ h
    exact absurd rfl ((cameraBody_sound w o param i l feed _ h).2.2 k s c)
  · intro _ i l feed rest _ _ hi _ ih h0 h1 h
    rcases List.mem_append.mp h with h | h
    · exact absurd rfl ((cameraBody_sound w o param i l feed _ h).2.2 k s c)
    · obtain ⟨h2, h3, h4, h5⟩ := ih (by omega) (by omega) h
      refine ⟨by omega, h3, h4, ?_⟩
      have h6 : (i + 1).toNat = i.toNat + 1 := by omega
      have h7 : k.toNat - i.toNat = (k.toNat - (i + 1).toNat) + 1 := by omega
      rw [setTrackingCameras_append, setTrackingCameras_cameraBody, h5, h7, List.range'_succ,
        h6]
      simp [Int.toNat_of_nonneg h0]

theorem cameraLoop_overflow (w : World Img Intr R L Pts) (o : Options) (param : Parameters)
    (hfeeds : ∀ k, 0 ≤ k → w.feedProvider (subMediaFilepath o k) (calibFile o k) ≠ none)
    (hn : INT_MAX < o.nCam) (fuel : Nat) (i : Int) (l : L) :
    0 ≤ i → i ≤ (INT_MAX : Int) → INT_MAX < i.toNat + fuel →
    (cameraLoop w o param fuel i l).2 = LoopExit.overflow := by
  refine cameraLoop_induction w o param
    (motive := fun fuel i _ r => 0 ≤ i → i ≤ (INT_MAX : Int) → INT_MAX < i.toNat + fuel →
      r.2 = LoopExit.overflow) ?_ ?_ ?_ ?_ ?_ fuel i l
  · intro i l h0 h1 h2
    unfold INT_MAX at h1 h2
    omega
  · intro _ i l hlt h0 h1 _
    rw [toSizeT_of_nonneg i h0 h1] at hlt
    unfold INT_MAX at h1 hn
    omega
  · intro _ i l _ hf h0 _ _
    exact absurd hf (hfeeds i h0)
  · intro _ i l feed _ _ _ _ _ _
    rfl
  · intro fuel i l feed rest _ _ hi _ ih h0 h1 h2
    unfold INT_MAX at h1 h2 hi
    exact ih (by omega) (by unfold INT_MAX; omega) (by unfold INT_MAX; omega)

theorem calibration_kinds (x : LoopExit L) :
    ∀ e ∈ (calibration x : List (Event Img Intr R Pts)),
      (∀ y, e ≠ Event.parse_command_line y) ∧ (∀ y, e ≠ Event.notify y) ∧
      (∀ s d b, e ≠ Event.localizerInit s d b) := by
  intro e he
  cases x with
  | finished l2 =>
    simp only [calibration, List.mem_cons, List.mem_singleton, List.not_mem_nil,
      or_false] at he
    rcases he with rfl | rfl | rfl | rfl <;> simp
  | returned st => simp [calibration] at he
  | overflow => simp [calibration] at he

theorem prelude_kinds (w : World Img Intr R L Pts) (o : Options) (param : Parameters) (l : L) :
    ∀ e ∈ startup o param true ++ exporter w o l,
      (∀ y, e ≠ Event.parse_command_line (some y)) ∧ (∀ y, e ≠ Event.notify (some y)) ∧
      (∀ s d, e ≠ Event.localizerInit s d false) := by
  intro e he
  rcases List.mem_append.mp he with he | he
  · simp only [startup, banner, List.mem_append, List.mem_cons, List.mem_singleton,
      List.not_mem_nil, or_false] at he
    rcases he with (he | he) | he
    · rcases he with rfl | rfl <;> simp
    · rcases he with rfl | rfl | rfl | rfl | rfl | rfl <;> simp
    · subst he; simp
  · unfold exporter at he
    split at he
    · simp only [List.mem_cons, List.mem_singleton, List.not_mem_nil, or_false] at he
      rcases he with rfl | rfl <;> simp
    · simp at he

theorem final_case_events (w : World Img Intr R L Pts) (o : Options) (param : Parameters)
    (l : L) (fuel : Nat) (e : Event Img Intr R Pts)
    (he : e ∈ startup o param true ++ exporter w o l ++ (cameraLoop w o param fuel 0 l).1
      ++ calibration (cameraLoop w o param fuel 0 l).2) :
    (∀ y, e ≠ Event.parse_command_line (some y)) ∧ (∀ y, e ≠ Event.notify (some y)) ∧
    (∀ s d, e ≠ Event.localizerInit s d false) ∧
    (∀ k s c, e = Event.feedProvider k s c false → e ∈ (cameraLoop w o param fuel 0 l).1) := by
  rcases List.mem_append.mp he with he | he
  · rcases List.mem_append.mp he with he | he
    · obtain ⟨h1, h2, h3⟩ := prelude_kinds w o param l e he
      refine ⟨h1, h2, h3, ?_⟩
      intro k s c hk
      have := (prelude_plain w o param true l e he).1
      rw [hk] at this
      simp [cameraOf] at this
    · obtain ⟨h1, h2, h3⟩ := cameraLoop_kinds w o param fuel 0 l e he
      exact ⟨fun y => h1 _, fun y => h2 _, fun s d => h3 _ _ _, fun _ _ _ _ => he⟩
  · obtain ⟨h1, h2, h3⟩ := calibration_kinds _ e he
    refine ⟨fun y => h1 _, fun y => h2 _, fun s d => h3 _ _ _, ?_⟩
    intro k s c hk
    have := calibration_plain _ e he
    rw [hk] at this
    simp [cameraOf] at this

theorem main_feed_failure (w : World Img Intr R L Pts) (k : Int) (s c : String)
    (h : Event.feedProvider k s c false ∈ (main w).trace) :
    0 ≤ k ∧ k.toNat < w.options.nCam ∧
    (main w).outcome = Outcome.returned ExitStatus.EXIT_FAILURE ∧
    setTrackingCameras (main w).trace = (List.range k.toNat).map Int.ofNat ∧
    ∀ e ∈ rigCalls (main w).trace, isSetTrackingResult e = true := by
  rcases main_cases w with ⟨e, -, h2⟩ | ⟨-, -, h2⟩ | ⟨e, -, -, -, h2⟩ | ⟨-, -, -, -, h2⟩ |
    ⟨l, -, -, -, hl, h2⟩
  · rw [h2] at h; simp [handler] at h
  · rw [h2] at h; simp at h
  · rw [h2] at h; simp [handler] at h
  · rw [h2] at h; simp [startup, banner] at h
  · rw [h2] at h ⊢
    dsimp only at h ⊢
    have hin := (final_case_events w w.options (parameters w.options) l _ _ h).2.2.2 k s c rfl
    obtain ⟨h0, h1, hx, hc⟩ := cameraLoop_feed_failure w w.options (parameters w.options)
      k s c _ 0 l (le_refl _) (by unfold INT_MAX; omega) hin
    rw [hx, calibration_returned, List.append_nil]
    refine ⟨h0, h1, rfl, ?_, ?_⟩
    · rw [setTrackingCameras_append,
        setTrackingCameras_plain _ (prelude_plain w w.options (parameters w.options) true l),
        hc, List.range_eq_range']
      simp
    · rw [rigCalls_append, rigCalls_append, rigCalls_startup, rigCalls_exporter]
      exact rigCalls_cameraLoop _ _ _ _ _ _

theorem cameraLoop_overflow_main (w : World Img Intr R L Pts)
    (hfeeds : ∀ k, 0 ≤ k →
      w.feedProvider (subMediaFilepath w.options k) (calibFile w.options k) ≠ none)
    (hn : INT_MAX < w.options.nCam) (l : L) :
    (cameraLoop w w.options (parameters w.options) w.options.nCam 0 l).2 =
      LoopExit.overflow :=
  cameraLoop_overflow w w.options (parameters w.options) hfeeds hn w.options.nCam 0 l
    (le_refl _) (by unfold INT_MAX; omega) (by simpa using hn)

theorem main_overflow (w : World Img Intr R L Pts) (l : L) (hp : w.parseThrows = none)
    (hh : ¬ (w.helpCount ≠ 0 ∨ w.argc = 1)) (hn : w.notifyThrows = none)
    (hl : w.localizerInit w.options.sfmFilePath w.options.descriptorsFolder = some l)
    (hfeeds : ∀ k, 0 ≤ k →
      w.feedProvider (subMediaFilepath w.options k) (calibFile w.options k) ≠ none)
    (hnc : INT_MAX < w.options.nCam) :
    (main w).outcome = Outcome.undefinedBehaviour := by
  rcases main_cases w with ⟨e, h1, -⟩ | ⟨-, h1, -⟩ | ⟨e, -, -, h1, -⟩ | ⟨-, -, -, h1, -⟩ |
    ⟨l2, -, -, -, -, h2⟩
  · rw [hp] at h1; simp at h1
  · exact absurd h1 hh
  · rw [hn] at h1; simp at h1
  · rw [hl] at h1; simp at h1
  · rw [h2]
    exact congrArg ending (cameraLoop_overflow_main w hfeeds hnc l2)

theorem rigCalls_shape (w : World Img Intr R L Pts) :
    (∀ e ∈ rigCalls (main w).trace, isSetTrackingResult e = true) ∨
    ∃ sets : List (Event Img Intr R Pts), (∀ e ∈ sets, isSetTrackingResult e = true) ∧
      rigCalls (main w).trace =
        sets ++ [Event.initializeCalibration, Event.optimizeCalibration] := by
  rcases main_cases w with ⟨e, -, h⟩ | ⟨-, -, h⟩ | ⟨e, -, -, -, h⟩ | ⟨-, -, -, -, h⟩ |
    ⟨l, -, -, -, -, h⟩
  · left; rw [h]; dsimp only; rw [rigCalls_append, rigCalls_handler]; simp [rigCalls, isRigCall]
  · left; rw [h]; simp [rigCalls, isRigCall]
  · left; rw [h]; dsimp only; rw [rigCalls_append, rigCalls_handler]; simp [rigCalls, isRigCall]
  · left; rw [h]; dsimp only; rw [rigCalls_append, rigCalls_startup]; simp [rigCalls, isRigCall]
  · rw [h]
    simp only [rigCalls_append, rigCalls_startup, rigCalls_exporter, List.nil_append]
    have hs := rigCalls_cameraLoop w w.options (parameters w.options) w.options.nCam 0 l
    cases hx : (cameraLoop w w.options (parameters w.options) w.options.nCam 0 l).2 with
    | finished l2 =>
      right
      refine ⟨_, hs, ?_⟩
      simp [calibration, rigCalls, isRigCall]
    | returned st =>
      left
      rw [calibration_returned, rigCalls_nil, List.append_nil]
      exact hs
    | overflow =>
      left
      rw [calibration_overflow, rigCalls_nil, List.append_nil]
      exact hs

theorem filter_rigCalls (p : Event Img Intr R Pts → Bool)
    (hp : ∀ e, p e = true → isRigCall e = true) (t : List (Event Img Intr R Pts)) :
    t.filter p = (rigCalls t).filter p := by
  rw [rigCalls, List.filter_filter]
  refine List.filter_congr (fun e _ => ?_)
  cases h : p e
  · rfl
  · simp [hp e h]

theorem filter_stage_le_one (p : Event Img Intr R Pts → Bool)
    (hp : ∀ e, p e = true → isRigCall e = true ∧ isSetTrackingResult e = false)
    (hpair : (List.filter p ([Event.initializeCalibration, Event.optimizeCalibration] :
      List (Event Img Intr R Pts))).length ≤ 1)
    (w : World Img Intr R L Pts) : ((main w).trace.filter p).length ≤ 1 := by
  rw [filter_rigCalls p (fun e he => (hp e he).1)]
  have hsets : ∀ sets : List (Event Img Intr R Pts),
      (∀ e ∈ sets, isSetTrackingResult e = true) → sets.filter p = [] := by
    intro sets hs
    rw [List.filter_eq_nil_iff]
    intro e he hpe
    have := (hp e hpe).2
    rw [hs e he] at this
    simp at this
  rcases rigCalls_shape w with h | ⟨sets, hs, h⟩
  · rw [hsets _ h]; simp
  · rw [h, List.filter_append, hsets sets hs, List.nil_append]
    exact hpair

theorem main_exit (w : World Img Intr R L Pts) :
    ((main w).outcome = Outcome.returned ExitStatus.EXIT_FAILURE ↔
      (∃ e, Event.parse_command_line (some e) ∈ (main w).trace ∨
        Event.notify (some e) ∈ (main w).trace) ∨
      (∃ s d, Event.localizerInit s d false ∈ (main w).trace) ∨
      (∃ k s c, 0 ≤ k ∧ k.toNat < w.options.nCam ∧
        Event.feedProvider k s c false ∈ (main w).trace)) ∧
    (∀ k s c, Event.feedProvider k s c false ∈ (main w).trace →
      setTrackingCameras (main w).trace = (List.range k.toNat).map Int.ofNat ∧
      ∀ e ∈ rigCalls (main w).trace, isSetTrackingResult e = true) ∧
    ((∃ e, Event.parse_command_line (some e) ∈ (main w).trace ∨
        Event.notify (some e) ∈ (main w).trace) ∨
      (∃ s d, Event.localizerInit s d false ∈ (main w).trace) →
      rigCalls (main w).trace = []) ∧
    (w.parseThrows = none → (w.helpCount ≠ 0 ∨ w.argc = 1) →
      rigCalls (main w).trace = [] ∧
      (main w).outcome = Outcome.returned ExitStatus.EXIT_SUCCESS) ∧
    (w.options.nCam ≤ INT_MAX →
      (main w).outcome ≠ Outcome.returned ExitStatus.EXIT_FAILURE →
      (main w).outcome = Outcome.returned ExitStatus.EXIT_SUCCESS) := by
  have hfeed : ∀ k s c, Event.feedProvider k s c false ∈ (main w).trace →
      setTrackingCameras (main w).trace = (List.range k.toNat).map Int.ofNat ∧
      ∀ e ∈ rigCalls (main w).trace, isSetTrackingResult e = true :=
    fun k s c hk => (main_feed_failure w k s c hk).2.2.2
  rcases main_cases w with ⟨e, hp, h2⟩ | ⟨hp, hh, h2⟩ | ⟨e, hp, hh, hn, h2⟩ |
    ⟨hp, hh, hn, hl, h2⟩ | ⟨l, hp, hh, hn, hl, h2⟩
  · refine ⟨⟨fun _ => Or.inl ⟨e, Or.inl (by rw [h2]; simp)⟩, fun _ => by rw [h2]⟩, hfeed,
      fun _ => ?_, fun hp2 => ?_, fun _ hne => ?_⟩
    · rw [h2]; dsimp only; rw [rigCalls_append, rigCalls_handler]; rfl
    · rw [hp] at hp2; simp at hp2
    · rw [h2] at hne; simp at hne
  · refine ⟨⟨fun hf => ?_, fun hc => ?_⟩, hfeed, fun _ => by rw [h2]; rfl,
      fun _ _ => ⟨by rw [h2]; rfl, by rw [h2]⟩, fun _ _ => by rw [h2]⟩
    · rw [h2] at hf; simp at hf
    · rw [h2] at hc; simp at hc
  · refine ⟨⟨fun _ => Or.inl ⟨e, Or.inr (by rw [h2]; simp)⟩, fun _ => by rw [h2]⟩, hfeed,
      fun _ => ?_, fun _ hh2 => absurd hh2 hh, fun _ hne => ?_⟩
    · rw [h2]; dsimp only; rw [rigCalls_append, rigCalls_handler]; rfl
    · rw [h2] at hne; simp at hne
  · refine ⟨⟨fun _ => Or.inr (Or.inl ⟨w.options.sfmFilePath, w.options.descriptorsFolder,
        by rw [h2]; simp [startup]⟩), fun _ => by rw [h2]⟩,
      hfeed, fun _ => ?_, fun _ hh2 => absurd hh2 hh, fun _ hne => ?_⟩
    · rw [h2]; dsimp only; rw [rigCalls_append, rigCalls_startup]; rfl
    · rw [h2] at hne; simp at hne
  · have hev := fun e he =>
      final_case_events w w.options (parameters w.options) l w.options.nCam e he
    have hnoparse : ¬ ((∃ e, Event.parse_command_line (some e) ∈ (main w).trace ∨
        Event.notify (some e) ∈ (main w).trace) ∨
        (∃ s d, Event.localizerInit s d false ∈ (main w).trace)) := by
      rw [h2]
      rintro (⟨e, he | he⟩ | ⟨s, d, he⟩)
      · exact (hev _ he).1 e rfl
      · exact (hev _ he).2.1 e rfl
      · exact (hev _ he).2.2.1 s d rfl
    have hout : (main w).outcome =
        ending (cameraLoop w w.options (parameters w.options) w.options.nCam 0 l).2 := by
      rw [h2]
    refine ⟨⟨fun hf => ?_, fun hc => ?_⟩, hfeed, fun hc => absurd hc hnoparse,
      fun _ hh2 => absurd hh2 hh, fun h hne => ?_⟩
    · rw [hout] at hf
      cases hx : (cameraLoop w w.options (parameters w.options) w.options.nCam 0 l).2 with
      | finished l2 => rw [hx] at hf; simp [ending] at hf
      | overflow => rw [hx] at hf; simp [ending] at hf
      | returned st =>
        obtain ⟨-, k, s, c, hk⟩ := cameraLoop_returned w w.options (parameters w.options)
          w.options.nCam 0 l st hx
        have hmem : Event.feedProvider k s c false ∈ (main w).trace := by
          rw [h2]
          exact List.mem_append.mpr (Or.inl (List.mem_append.mpr (Or.inr hk)))
        obtain ⟨h0, h1, -⟩ := main_feed_failure w k s c hmem
        exact Or.inr (Or.inr ⟨k, s, c, h0, h1, hmem⟩)
    · rcases hc with hc | hc | ⟨k, s, c, -, -, hk⟩
      · exact absurd (Or.inl hc) hnoparse
      · exact absurd (Or.inr hc) hnoparse
      · exact (main_feed_failure w k s c hk).2.2.1
    · rw [hout] at hne ⊢
      cases hx : (cameraLoop w w.options (parameters w.options) w.options.nCam 0 l).2 with
      | finished l2 => rfl
      | overflow =>
        exact absurd hx (cameraLoop_no_overflow w w.options (parameters w.options) h _ 0 l)
      | returned st =>
        obtain ⟨rfl, -⟩ := cameraLoop_returned w w.options (parameters w.options)
          w.options.nCam 0 l st hx
        rw [hx] at hne
        simp [ending] at hne

theorem decimal_no_sign (n : Nat) : '-' ∉ decimal n := by
  intro h
  have := (decimalFuel_spec (n + 1) n (Nat.lt_succ_self n)).2.1 _ h
  simp [isDecimalDigit] at this

theorem unsignedFeeds_of_nonneg (w : World Nat Nat Nat Unit Unit)
    (hm : w.options.mediaFilepath = "m") (k : Int) (hk : 0 ≤ k) :
    unsignedFeeds (subMediaFilepath w.options k) = some [] := by
  have hdata : (subMediaFilepath w.options k).data = 'm' :: '/' :: decimal k.natAbs := by
    simp [subMediaFilepath, hm, to_string, not_lt.mpr hk]
  unfold unsignedFeeds
  rw [hdata]
  have := decimal_no_sign k.natAbs
  simp [this]

theorem main_defined (w : World Img Intr R L Pts) (h : w.options.nCam ≤ INT_MAX) :
    (main w).outcome ≠ Outcome.undefinedBehaviour := by
  rcases main_cases w with ⟨e, -, h2⟩ | ⟨-, -, h2⟩ | ⟨e, -, -, -, h2⟩ | ⟨-, -, -, -, h2⟩ |
    ⟨l, -, -, -, -, h2⟩
  · rw [h2]; simp
  · rw [h2]; simp
  · rw [h2]; simp
  · rw [h2]; simp
  · rw [h2]
    have := cameraLoop_no_overflow w w.options (parameters w.options) h w.options.nCam 0 l
    cases hx : (cameraLoop w w.options (parameters w.options) w.options.nCam 0 l).2 with
    | finished l2 => simp [ending]
    | returned st => simp [ending]
    | overflow => exact absurd hx this

/-! ## The claims -/

/-- C1 (stage order).  In every run the calls made on the rig object are either
`setTrackingResult` calls only, or `setTrackingResult` calls followed by exactly one
`initializeCalibration` and then exactly one `optimizeCalibration`.  In particular, before
every call of `optimizeCalibration` there is a call of `initializeCalibration`, and each
of the two stages is called at most once. -/
theorem stage_order (w : World Img Intr R L Pts) :
    ((∀ e ∈ rigCalls (main w).trace, isSetTrackingResult e = true) ∨
      ∃ sets : List (Event Img Intr R Pts), (∀ e ∈ sets, isSetTrackingResult e = true) ∧
        rigCalls (main w).trace =
          sets ++ [Event.initializeCalibration, Event.optimizeCalibration]) ∧
    (∀ before after, (main w).trace = before ++ Event.optimizeCalibration :: after →
      Event.initializeCalibration ∈ before) ∧
    ((main w).trace.filter isInitializeCalibration).length ≤ 1 ∧
    ((main w).trace.filter isOptimizeCalibration).length ≤ 1 := by
  refine ⟨rigCalls_shape w, ?_, ?_, ?_⟩
  · intro before after hb
    have hr : rigCalls (main w).trace =
        rigCalls before ++ Event.optimizeCalibration :: rigCalls after := by
      rw [hb, rigCalls_append]
      rfl
    rcases rigCalls_shape w with h | ⟨sets, hs, h⟩
    · have := h Event.optimizeCalibration (by rw [hr]; simp)
      simp [isSetTrackingResult] at this
    · rw [h] at hr
      have hsplit : sets ++ [Event.initializeCalibration, Event.optimizeCalibration] =
          (sets ++ [Event.initializeCalibration]) ++ Event.optimizeCalibration :: [] := by
        simp
      rw [hsplit] at hr
      have hx : Event.optimizeCalibration ∉ sets ++ [Event.initializeCalibration] := by
        intro hm
        rcases List.mem_append.mp hm with hm | hm
        · have := hs _ hm
          simp [isSetTrackingResult] at this
        · simp at hm
      obtain ⟨h1, -⟩ := split_unique hx (List.not_mem_nil _) _ _ hr
      have hin : Event.initializeCalibration ∈ rigCalls before := by rw [h1]; simp
      exact (List.mem_filter.mp hin).1
  · refine filter_stage_le_one isInitializeCalibration (fun e he => ?_)
      (by simp [isInitializeCalibration]) w
    cases e <;> simp [isInitializeCalibration] at he
    exact ⟨rfl, rfl⟩
  · refine filter_stage_le_one isOptimizeCalibration (fun e he => ?_)
      (by simp [isOptimizeCalibration]) w
    cases e <;> simp [isOptimizeCalibration] at he
    exact ⟨rfl, rfl⟩

/-- Witness of C1: in a run with two cameras, `optimizeCalibration` is event 45 and
`initializeCalibration` is among the events before it. -/
theorem stage_order_witness :
    (main (world 2 twoFeeds id)).trace =
      (main (world 2 twoFeeds id)).trace.take 45 ++ Event.optimizeCalibration ::
        (main (world 2 twoFeeds id)).trace.drop 46 ∧
    Event.initializeCalibration ∈ (main (world 2 twoFeeds id)).trace.take 45 :=
  ⟨by decide,
    (stage_order (world 2 twoFeeds id)).2.1 ((main (world 2 twoFeeds id)).trace.take 45)
      ((main (world 2 twoFeeds id)).trace.drop 46) (by decide)⟩

/-- C2 (all cameras before initialization).  When `nCam ≤ 2^31 - 1` the loop counter does
not overflow, and in every run in which `initializeCalibration` is called, the
`setTrackingResult` calls made before it are, in this order, those of the camera indices
`0, 1, ..., nCam - 1`: one call for each index, and none for another index. -/
theorem all_cameras_before_initialization (w : World Img Intr R L Pts)
    (h : w.options.nCam ≤ INT_MAX) :
    (main w).outcome ≠ Outcome.undefinedBehaviour ∧
    ∀ before after, (main w).trace = before ++ Event.initializeCalibration :: after →
      setTrackingCameras before = (List.range w.options.nCam).map Int.ofNat := by
  refine ⟨?_, fun before after hb => setTrackingCameras_before w before after hb⟩
  rcases main_cases w with ⟨e, -, h2⟩ | ⟨-, -, h2⟩ | ⟨e, -, -, -, h2⟩ | ⟨-, -, -, -, h2⟩ |
    ⟨l, -, -, -, hl, h2⟩
  · rw [h2]; simp
  · rw [h2]; simp
  · rw [h2]; simp
  · rw [h2]; simp
  · rw [h2]
    have := cameraLoop_no_overflow w w.options (parameters w.options) h w.options.nCam 0 l
    cases hx : (cameraLoop w w.options (parameters w.options) w.options.nCam 0 l).2 with
    | finished l2 => simp [ending]
    | returned st => simp [ending]
    | overflow => exact absurd hx this

/-- Witness of C2: two cameras, with the trace cut at the call of `initializeCalibration`. -/
theorem all_cameras_before_initialization_witness :
    (world 2 twoFeeds id).options.nCam ≤ INT_MAX ∧
    (main (world 2 twoFeeds id)).trace =
      (main (world 2 twoFeeds id)).trace.take 43 ++ Event.initializeCalibration ::
        (main (world 2 twoFeeds id)).trace.drop 44 ∧
    setTrackingCameras ((main (world 2 twoFeeds id)).trace.take 43) = [0, 1] :=
  ⟨by decide, by decide,
    (all_cameras_before_initialization (world 2 twoFeeds id) (by decide)).2
      ((main (world 2 twoFeeds id)).trace.take 43) ((main (world 2 twoFeeds id)).trace.drop 44)
      (by decide)⟩

/-- C3, as stated, fails: with `nCameras = 0` the camera loop is not entered, and
`initializeCalibration` is called although no `setTrackingResult` call was made. -/
theorem no_camera_counterexample :
    Event.initializeCalibration ∈ (main (world 0 twoFeeds id)).trace ∧
    setTrackingCameras (main (world 0 twoFeeds id)).trace = [] := by
  decide

/-- C3, amended (a reference track exists before initialization when `nCameras ≥ 1`).
For every value `nCam ≥ 1` of the option and every run that calls `initializeCalibration`,
a `setTrackingResult` call with camera index `0` precedes that call. -/
theorem reference_track_before_initialization (w : World Img Intr R L Pts)
    (h : 1 ≤ w.options.nCam) :
    ∀ before after, (main w).trace = before ++ Event.initializeCalibration :: after →
      ∃ track, Event.setTrackingResult track 0 ∈ before := by
  intro before after hb
  rw [← mem_setTrackingCameras, setTrackingCameras_before w before after hb]
  exact List.mem_map.mpr ⟨0, List.mem_range.mpr (by omega), rfl⟩

/-- Witness of the amended C3: two cameras, the trace cut at `initializeCalibration`. -/
theorem reference_track_before_initialization_witness :
    1 ≤ (world 2 twoFeeds id).options.nCam ∧
    (main (world 2 twoFeeds id)).trace =
      (main (world 2 twoFeeds id)).trace.take 43 ++ Event.initializeCalibration ::
        (main (world 2 twoFeeds id)).trace.drop 44 ∧
    ∃ track, Event.setTrackingResult track 0 ∈ (main (world 2 twoFeeds id)).trace.take 43 :=
  ⟨by decide, by decide,
    reference_track_before_initialization (world 2 twoFeeds id) (by decide)
      ((main (world 2 twoFeeds id)).trace.take 43) ((main (world 2 twoFeeds id)).trace.drop 44)
      (by decide)⟩

/-- C4 (track contents).  For every call `setTrackingResult(track, i)` of a run, the feed
of camera `i` was opened, the track has as many entries as the feed delivers frames, and
the `localize` calls made for camera `i` are, in order, one call per frame of the feed,
the call for the `k`-th frame having produced the `k`-th entry of the track. -/
theorem track_contents (w : World Img Intr R L Pts) (i : Int) (track : List R)
    (h : Event.setTrackingResult track i ∈ (main w).trace) :
    ∃ feed, feedOf w i = some feed ∧ track.length = feed.length ∧
      localizeCalls i (main w).trace = feed.zip track :=
  (main_track w i track h).2

/-- Witness of C4: the track of camera `0` in a run with two cameras. -/
theorem track_contents_witness :
    Event.setTrackingResult [10, 11] 0 ∈ (main (world 2 twoFeeds id)).trace ∧
    ∃ feed, feedOf (world 2 twoFeeds id) 0 = some feed ∧ [10, 11].length = feed.length ∧
      localizeCalls 0 (main (world 2 twoFeeds id)).trace = feed.zip [10, 11] :=
  ⟨by decide, track_contents (world 2 twoFeeds id) 0 [10, 11] (by decide)⟩

/-- C5, as stated, fails: a feed that opens and delivers no frame makes `main` call
`setTrackingResult` with an empty track. -/
theorem empty_track_counterexample :
    Event.setTrackingResult [] 0 ∈ (main (world 1 emptyFeed id)).trace := by
  decide

/-- C5, amended (for `nCam ≤ 2^31 - 1`).  When `nCam ≤ 2^31 - 1` the loop counter does not
overflow, and for every call `setTrackingResult(track, i)` of the run, `i` is not negative
and the track has one entry per frame delivered by the feed of camera `i`; it is non-empty
exactly when that feed delivers at least one frame. -/
theorem tracking_calls (w : World Img Intr R L Pts) (hn : w.options.nCam ≤ INT_MAX)
    (i : Int) (track : List R) (h : Event.setTrackingResult track i ∈ (main w).trace) :
    (main w).outcome ≠ Outcome.undefinedBehaviour ∧
    0 ≤ i ∧ ∃ feed, feedOf w i = some feed ∧ track.length = feed.length ∧
      (track ≠ [] ↔ feed ≠ []) := by
  obtain ⟨h0, feed, h1, h2, -⟩ := main_track w i track h
  refine ⟨main_defined w hn, h0, feed, h1, h2, ?_⟩
  rw [← List.length_pos, ← List.length_pos, h2]

/-- Witness of the amended C5: the track of camera `1` in a run with two cameras. -/
theorem tracking_calls_witness :
    (world 2 twoFeeds id).options.nCam ≤ INT_MAX ∧
    Event.setTrackingResult [20] 1 ∈ (main (world 2 twoFeeds id)).trace ∧
    (main (world 2 twoFeeds id)).outcome ≠ Outcome.undefinedBehaviour ∧
    (0 : Int) ≤ 1 ∧ ∃ feed, feedOf (world 2 twoFeeds id) 1 = some feed ∧
      [20].length = feed.length ∧ (([20] : List Nat) ≠ [] ↔ feed ≠ []) :=
  ⟨by decide, by decide,
    tracking_calls (world 2 twoFeeds id) (by decide) 1 [20] (by decide)⟩

/-- C6 holds of the program description, not of the code.  The output of `main` (printed
lines, exporter calls and exit status) is the same whatever the localizer computes; and a
run with one camera and one frame for which the localizer finds pose `1`, and the same run
with pose `2`, hand different tracks to the rig and have the same output. -/
theorem pose_not_in_output (w : World Img Intr R L Pts)
    (g : L → Img → Parameters → Bool → Intr → L × Intr × R) :
    output (main (withLocalize w g)) = output (main w) ∧
    Event.setTrackingResult [1] 0 ∈ (main (world 1 oneFrame (fun _ => 1))).trace ∧
    Event.setTrackingResult [2] 0 ∈ (main (world 1 oneFrame (fun _ => 2))).trace ∧
    setTrackingCameras (main (world 1 oneFrame (fun _ => 1))).trace = [0] ∧
    setTrackingCameras (main (world 1 oneFrame (fun _ => 2))).trace = [0] ∧
    output (main (world 1 oneFrame (fun _ => 1))) =
      output (main (world 1 oneFrame (fun _ => 2))) :=
  ⟨output_independent_of_localize w g, by decide, by decide, by decide, by decide, by decide⟩

/-- C7 (sequential per-camera collection).  In the trace of every run, for every camera
index `i`: a `localize` call for camera `i` comes before `setTrackingResult(., i)`, and is
followed by such a call; `setTrackingResult(., i)` comes before the feed of camera `i + 1`
is opened and before every `localize` call for camera `i + 1`; and of two events that
belong to cameras, the later one never belongs to an earlier camera, so that the calls of
two cameras are not interleaved. -/
theorem sequential_collection (w : World Img Intr R L Pts) (i : Int) (p q : Nat) :
    (∀ f r track, (main w).trace[p]? = some (Event.localize i f r) →
      (main w).trace[q]? = some (Event.setTrackingResult track i) → p < q) ∧
    (∀ f r, (main w).trace[p]? = some (Event.localize i f r) →
      ∃ (q2 : Nat) (track : List R),
        (main w).trace[q2]? = some (Event.setTrackingResult track i)) ∧
    (∀ track s c b, (main w).trace[p]? = some (Event.setTrackingResult track i) →
      (main w).trace[q]? = some (Event.feedProvider (i + 1) s c b) → p < q) ∧
    (∀ track f r, (main w).trace[p]? = some (Event.setTrackingResult track i) →
      (main w).trace[q]? = some (Event.localize (i + 1) f r) → p < q) ∧
    (∀ a b j k, (main w).trace[p]? = some a → (main w).trace[q]? = some b →
      cameraOf a = some j → cameraOf b = some k → p < q → j ≤ k) := by
  refine ⟨?_, ?_, ?_, ?_, ?_⟩
  · intro f r track hp hq
    by_contra hlt
    rcases Nat.lt_or_eq_of_le (Nat.le_of_not_lt hlt) with hlt | heq
    · rcases trace_inOrder w q p _ _ hq hp hlt i i rfl rfl with h | ⟨-, h⟩
      · omega
      · simp [phase] at h
    · rw [heq, hp] at hq
      simp at hq
  · intro f r hp
    obtain ⟨track, ht⟩ := main_track_follows w i f r (List.mem_iff_getElem?.mpr ⟨p, hp⟩)
    obtain ⟨q2, hq2⟩ := List.mem_iff_getElem?.mp ht
    exact ⟨q2, track, hq2⟩
  · intro track s c b hp hq
    by_contra hlt
    rcases Nat.lt_or_eq_of_le (Nat.le_of_not_lt hlt) with hlt | heq
    · rcases trace_inOrder w q p _ _ hq hp hlt (i + 1) i rfl rfl with h | ⟨h, -⟩
      · omega
      · omega
    · rw [heq, hp] at hq
      simp at hq
  · intro track f r hp hq
    by_contra hlt
    rcases Nat.lt_or_eq_of_le (Nat.le_of_not_lt hlt) with hlt | heq
    · rcases trace_inOrder w q p _ _ hq hp hlt (i + 1) i rfl rfl with h | ⟨h, -⟩
      · omega
      · omega
    · rw [heq, hp] at hq
      simp at hq
  · intro a b j k hp hq hj hk hpq
    rcases trace_inOrder w p q a b hp hq hpq j k hj hk with h | ⟨h, -⟩
    · omega
    · omega

/-- Witness of C7: in a run with two cameras the first `localize` call of camera `0` is
event 15 and the call `setTrackingResult(., 0)` is event 22. -/
theorem sequential_collection_witness :
    (main (world 2 twoFeeds id)).trace[15]? = some (Event.localize 0 (frame 10) 10) ∧
    (main (world 2 twoFeeds id)).trace[22]? = some (Event.setTrackingResult [10, 11] 0) ∧
    15 < 22 :=
  ⟨by decide, by decide,
    (sequential_collection (world 2 twoFeeds id) 0 15 22).1 (frame 10) 10 [10, 11]
      (by decide) (by decide)⟩

/-- C8 (frame indices).  First, the invariant of the frame loop: when the frames `done`
have been processed, at the start of the next iteration (or at the exit of the loop),
`frameCounter` equals the number of results stored in `vLocalizationResults`, which is the
number of frames processed.  Second, for every call `setTrackingResult(track, i)` of a
run, the trace holds, between the opening of the feed of camera `i` and that call, one
block per frame of the feed: the block announced as `FRAME k` localizes the `k`-th frame
and produces the `k`-th entry of the track, for `k = 0, 1, ..., n - 1` in this order; and
the line printed after the call reports the length `n` of the track. -/
theorem frame_indices (w : World Img Intr R L Pts) :
    (∀ (param : Parameters) (i : Int) (l : L) (done rest : List (Frame Img Intr)),
      frameLoop w param i (done ++ rest) (initialVars w l) =
        ((frameLoop w param i done (initialVars w l)).1 ++
            (frameLoop w param i rest (frameLoop w param i done (initialVars w l)).2).1,
          (frameLoop w param i rest (frameLoop w param i done (initialVars w l)).2).2) ∧
      (frameLoop w param i done (initialVars w l)).2.frameCounter =
        (frameLoop w param i done (initialVars w l)).2.vLocalizationResults.length ∧
      (frameLoop w param i done (initialVars w l)).2.frameCounter = done.length) ∧
    (∀ (track : List R) (i : Int), Event.setTrackingResult track i ∈ (main w).trace →
      ∃ feed before after, feedOf w i = some feed ∧ track.length = feed.length ∧
        (main w).trace =
          before
          ++ [Event.feedProvider i (subMediaFilepath w.options i) (calibFile w.options i) true]
          ++ ((feed.zip track).enum).flatMap (fun x => frameEvents w i x.1 x.2.1 x.2.2)
          ++ [Event.setTrackingResult track i,
              Event.cout "\n\n******************************",
              Event.cout ("Localized " ++ String.mk (decimal track.length) ++ " images")]
          ++ after) := by
  refine ⟨fun param i l done rest => ⟨frameLoop_append w param i done rest _, ?_, ?_⟩, ?_⟩
  · rw [frameLoop_frameCounter, (frameLoop_initial w param i done l).1]
    simp [initialVars]
  · rw [frameLoop_frameCounter]
    simp [initialVars]
  · intro track i h
    obtain ⟨-, -, feed, l2, before, after, h3, h4, h5, -, -⟩ :=
      main_setTrackingResult w track i h
    have hlen := (frameLoop_initial w (parameters w.options) i feed l2).1
    have hev := (frameLoop_initial w (parameters w.options) i feed l2).2
    have hctr : (frameLoop w (parameters w.options) i feed (initialVars w l2)).2.frameCounter
        = track.length := by
      rw [frameLoop_frameCounter, h4, hlen]
      simp [initialVars]
    refine ⟨feed, before,
      [Event.coutStat "Processing took " Stat.sumDiv1000
          (frameLoop w (parameters w.options) i feed (initialVars w l2)).2.stats " [s] overall",
        Event.coutStat "Mean time for localization:   " Stat.mean
          (frameLoop w (parameters w.options) i feed (initialVars w l2)).2.stats " [ms]",
        Event.coutStat "Max time for localization:   " Stat.max
          (frameLoop w (parameters w.options) i feed (initialVars w l2)).2.stats " [ms]",
        Event.coutStat "Min time for localization:   " Stat.min
          (frameLoop w (parameters w.options) i feed (initialVars w l2)).2.stats " [ms]"]
        ++ after, h3, by rw [h4, hlen], ?_⟩
    rw [h5]
    simp only [cameraBody, timeStats, hctr]
    rw [hev, ← h4]
    simp

/-- Witness of C8: the track of camera `0` in a run with two cameras. -/
theorem frame_indices_witness :
    Event.setTrackingResult [10, 11] 0 ∈ (main (world 2 twoFeeds id)).trace ∧
    ∃ feed before after, feedOf (world 2 twoFeeds id) 0 = some feed ∧
      [10, 11].length = feed.length ∧
      (main (world 2 twoFeeds id)).trace =
        before
        ++ [Event.feedProvider 0 (subMediaFilepath (world 2 twoFeeds id).options 0)
            (calibFile (world 2 twoFeeds id).options 0) true]
        ++ ((feed.zip [10, 11]).enum).flatMap
            (fun x => frameEvents (world 2 twoFeeds id) 0 x.1 x.2.1 x.2.2)
        ++ [Event.setTrackingResult [10, 11] 0,
            Event.cout "\n\n******************************",
            Event.cout ("Localized " ++ String.mk (decimal [10, 11].length) ++ " images")]
        ++ after :=
  ⟨by decide, (frame_indices (world 2 twoFeeds id)).2 [10, 11] 0 (by decide)⟩

/-- C9, as stated, fails for camera counts above `2^31 - 1`: with `nCameras = 2^64 - 1`,
an accepted command line, a localizer that starts and a media folder in which the feed of
every camera `0, 1, 2, ...` opens (and delivers no frame), no feed fails before the `int`
counter `iLocalizer` is incremented at `INT_MAX`: the behaviour of the run is undefined,
where the claim gives every run the exit status `EXIT_FAILURE` or `EXIT_SUCCESS`. -/
theorem overflow_counterexample :
    (world 18446744073709551615 unsignedFeeds id).parseThrows = none ∧
    (world 18446744073709551615 unsignedFeeds id).helpCount = 0 ∧
    (world 18446744073709551615 unsignedFeeds id).argc ≠ 1 ∧
    (world 18446744073709551615 unsignedFeeds id).notifyThrows = none ∧
    (world 18446744073709551615 unsignedFeeds id).localizerInit "sfm.json" "" = some () ∧
    (∀ k, 0 ≤ k → feedOf (world 18446744073709551615 unsignedFeeds id) k = some []) ∧
    (main (world 18446744073709551615 unsignedFeeds id)).outcome =
      Outcome.undefinedBehaviour ∧
    (main (world 18446744073709551615 unsignedFeeds id)).outcome ≠
      Outcome.returned ExitStatus.EXIT_SUCCESS ∧
    (main (world 18446744073709551615 unsignedFeeds id)).outcome ≠
      Outcome.returned ExitStatus.EXIT_FAILURE := by
  have hout := main_overflow (world 18446744073709551615 unsignedFeeds id) () rfl (by decide)
    rfl rfl (fun k hk => by rw [show (world 18446744073709551615 unsignedFeeds id).feedProvider
      (subMediaFilepath (world 18446744073709551615 unsignedFeeds id).options k)
      (calibFile (world 18446744073709551615 unsignedFeeds id).options k) =
        unsignedFeeds (subMediaFilepath (world 18446744073709551615 unsignedFeeds id).options k)
        from rfl, unsignedFeeds_of_nonneg _ rfl k hk]; simp) (by decide)
  refine ⟨rfl, rfl, by decide, rfl, rfl, fun k hk => unsignedFeeds_of_nonneg _ rfl k hk,
    hout, ?_, ?_⟩
  · rw [hout]; simp
  · rw [hout]; simp

/-- C9, amended (exit status, for `nCam ≤ 2^31 - 1`).  `main` returns `EXIT_FAILURE`
exactly when the option parser throws (in `parse_command_line` or in `notify`), or
`localizer.init` fails, or the feed of some camera `k < nCam` fails to open.  When the
feed of camera `k` fails, the rig calls of the run are `setTrackingResult` calls only,
those of the cameras `0, ..., k - 1`.  When the parser throws or the localizer fails,
there is no rig call; likewise when help is requested or there is no argument, and `main`
then returns success.  A run that does not return `EXIT_FAILURE` returns `EXIT_SUCCESS`. -/
theorem exit_status (w : World Img Intr R L Pts) (h : w.options.nCam ≤ INT_MAX) :
    ((main w).outcome = Outcome.returned ExitStatus.EXIT_FAILURE ↔
      (∃ e, Event.parse_command_line (some e) ∈ (main w).trace ∨
        Event.notify (some e) ∈ (main w).trace) ∨
      (∃ s d, Event.localizerInit s d false ∈ (main w).trace) ∨
      (∃ k s c, 0 ≤ k ∧ k.toNat < w.options.nCam ∧
        Event.feedProvider k s c false ∈ (main w).trace)) ∧
    (∀ k s c, Event.feedProvider k s c false ∈ (main w).trace →
      setTrackingCameras (main w).trace = (List.range k.toNat).map Int.ofNat ∧
      ∀ e ∈ rigCalls (main w).trace, isSetTrackingResult e = true) ∧
    ((∃ e, Event.parse_command_line (some e) ∈ (main w).trace ∨
        Event.notify (some e) ∈ (main w).trace) ∨
      (∃ s d, Event.localizerInit s d false ∈ (main w).trace) →
      rigCalls (main w).trace = []) ∧
    (w.parseThrows = none → (w.helpCount ≠ 0 ∨ w.argc = 1) →
      rigCalls (main w).trace = [] ∧
      (main w).outcome = Outcome.returned ExitStatus.EXIT_SUCCESS) ∧
    ((main w).outcome ≠ Outcome.returned ExitStatus.EXIT_FAILURE →
      (main w).outcome = Outcome.returned ExitStatus.EXIT_SUCCESS) :=
  ⟨(main_exit w).1, (main_exit w).2.1, (main_exit w).2.2.1, (main_exit w).2.2.2.1,
    (main_exit w).2.2.2.2 h⟩

/-- Witness of the amended C9.  When three cameras are asked for and the feed of camera
`2` does not open, the run returns `EXIT_FAILURE` after the calls for the cameras `0` and
`1`; with two cameras whose feeds open, the run returns `EXIT_SUCCESS`. -/
theorem exit_status_witness :
    ((world 3 twoFeeds id).options.nCam ≤ INT_MAX ∧
      Event.feedProvider 2 "m/2" "m/2/intrinsics.txt" false ∈
        (main (world 3 twoFeeds id)).trace ∧
      (main (world 3 twoFeeds id)).outcome = Outcome.returned ExitStatus.EXIT_FAILURE ∧
      setTrackingCameras (main (world 3 twoFeeds id)).trace = [0, 1] ∧
      ∀ e ∈ rigCalls (main (world 3 twoFeeds id)).trace, isSetTrackingResult e = true) ∧
    ((world 2 twoFeeds id).options.nCam ≤ INT_MAX ∧
      (main (world 2 twoFeeds id)).outcome ≠ Outcome.returned ExitStatus.EXIT_FAILURE ∧
      (main (world 2 twoFeeds id)).outcome = Outcome.returned ExitStatus.EXIT_SUCCESS) :=
  ⟨⟨by decide, by decide,
      (exit_status (world 3 twoFeeds id) (by decide)).1.mpr
        (Or.inr (Or.inr ⟨2, "m/2", "m/2/intrinsics.txt", by decide, by decide, by decide⟩)),
      (exit_status (world 3 twoFeeds id) (by decide)).2.1 2 "m/2" "m/2/intrinsics.txt"
        (by decide)⟩,
    ⟨by decide, by decide,
      (exit_status (world 2 twoFeeds id) (by decide)).2.2.2.2 (by decide)⟩⟩

/-- C10 (`myToString` pads with zeros and never truncates).  For every `i` and every width
`zeroPadding` representable as an `int`, `myToString i zeroPadding` is the decimal
representation of `i` preceded by exactly `zeroPadding - d` characters `'0'` (none when
`zeroPadding ≤ d`), where `d` is the number of decimal digits of `i`; its length is
`max zeroPadding d`, it consists of decimal digits, and reading it back yields `i`.  The
last four parts state that `decimal i` is the decimal representation of `i`: it reads back
as `i` and its length `d` is the number of digits, `10^(d-1) ≤ i < 10^d` (`d = 1` for
`i = 0`). -/
theorem myToString_zero_pads (i zeroPadding : Nat) (h : zeroPadding ≤ INT_MAX) :
    (myToString i zeroPadding).data =
      List.replicate (zeroPadding - (decimal i).length) '0' ++ decimal i ∧
    (myToString i zeroPadding).length = max zeroPadding (decimal i).length ∧
    (∀ c ∈ (myToString i zeroPadding).data, isDecimalDigit c) ∧
    readDecimal (myToString i zeroPadding).data = i ∧
    readDecimal (decimal i) = i ∧
    i < 10 ^ (decimal i).length ∧
    (i ≠ 0 → 10 ^ ((decimal i).length - 1) ≤ i) ∧
    1 ≤ (decimal i).length := by
  obtain ⟨h1, h2, h3, h4⟩ := decimalFuel_spec (i + 1) i (Nat.lt_succ_self i)
  have hne : decimalFuel (i + 1) i ≠ [] := decimalFuel_ne_nil _ _ (Nat.lt_succ_self i)
  have hpad : (myToString i zeroPadding).data =
      List.replicate (zeroPadding - (decimal i).length) '0' ++ decimal i := by
    simp only [myToString, padField, toInt_of_le zeroPadding h]
    congr 2
    omega
  refine ⟨hpad, ?_, ?_, ?_, h1, h3, h4, List.length_pos.mpr hne⟩
  · rw [String.length, hpad, List.length_append, List.length_replicate]
    omega
  · intro c hc
    rw [hpad] at hc
    rcases List.mem_append.mp hc with hc | hc
    · rw [List.eq_of_mem_replicate hc]
      exact ⟨by decide, by decide⟩
    · exact h2 c hc
  · rw [hpad, readDecimal_zeros]
    exact h1

/-- Witness of C10: the header of frame 7 is `0007`. -/
theorem myToString_zero_pads_witness :
    4 ≤ INT_MAX ∧
    (myToString 7 4).data = List.replicate (4 - (decimal 7).length) '0' ++ decimal 7 ∧
    myToString 7 4 = "0007" :=
  ⟨by decide, (myToString_zero_pads 7 4 (by decide)).1, by decide⟩

end RigCalibration

